import Mathlib

set_option maxHeartbeats 1000000
set_option maxRecDepth 100000

/-!
Verification development for the WeworkBot / GitLab n8n community-node repository.

The TypeScript source is shallowly embedded: JavaScript strings are modelled as
lists of characters (`Str`), JavaScript numbers carrying API error codes as `Int`,
fallible functions as `Except`, and the retrying HTTP client as a fuel-indexed
loop over an abstract transport oracle.  Regular-expression passes from the
source are translated into equivalent deterministic scanners (the patterns in
the source have no backtracking ambiguity, so left-to-right scanning with
non-overlapping matches reproduces `String.prototype.replace`/`match` with a
global regex).
-/

/-- Model of a JavaScript string: a list of UTF-16 code units, idealised as
characters.  All the string contents handled by the node are BMP text, where
`length`, `substring` and friends agree with this model. -/
abbrev Str := List Char

/-- Coerce a Lean string literal into the model. -/
def S (s : String) : Str := s.data

/-- The backtick character (written via its code point to keep the development
free of stray backtick tokens). -/
def backtick : Char := Char.ofNat 96

/-- JavaScript `String.prototype.includes`: substring containment. -/
def containsSub (needle : Str) : Str → Bool
  | [] => needle.isEmpty
  | c :: rest => needle.isPrefixOf (c :: rest) || containsSub needle rest

/-- JavaScript `String.prototype.trim` (both ends, whitespace class idealised
by `Char.isWhitespace`). -/
def jsTrim (s : Str) : Str :=
  ((s.dropWhile Char.isWhitespace).reverse.dropWhile Char.isWhitespace).reverse

/-- Embedding of `Utils.isEmptyOrWhitespace` from `utils.ts`: `!str || str.trim().length === 0`. -/
def isEmptyOrWhitespace (s : Str) : Bool :=
  (jsTrim s).isEmpty

/-- Embedding of `Utils.truncateString` from `utils.ts`: keep `maxLength - suffix.length`
characters and append the suffix when the input is longer than `maxLength`. -/
def truncateString (str : Str) (maxLength : Nat) (suffix : Str) : Str :=
  if str.length ≤ maxLength then str
  else str.take (maxLength - suffix.length) ++ suffix

/-- Case-insensitive match of one pattern character `p` (given in lowercase, as
all the source regexes with the `i` flag spell their literals) against a subject
character: the `i` flag accepts the uppercase counterpart of a letter. -/
def ciChar (p c : Char) : Bool :=
  c = p || (p.isLower && c = Char.ofNat (p.toNat - 32))

/-- Case-insensitive prefix test used for the `/i` regex literals. -/
def startsWithCI : Str → Str → Bool
  | [], _ => true
  | _ :: _, [] => false
  | p :: ps, c :: cs => ciChar p c && startsWithCI ps cs

/-- JavaScript `\w` character class (ASCII word characters). -/
def isWordChar (c : Char) : Bool :=
  c.isAlphanum || c = '_'

/-- Modelled from the spec: the WHATWG `URL` constructor
(external to this repository).  A string is taken to parse as a URL when it
starts with a scheme `letter (letter | digit | + | - | .)* :`; the protocol is
the lowercased scheme.  `MessageValidator.validateUrl` then accepts exactly the
http/https protocols. -/
def urlScheme (s : Str) : Option Str :=
  match s with
  | [] => none
  | c :: rest =>
    if c.isAlpha then
      match rest.dropWhile (fun d => d.isAlphanum || d = '+' || d = '-' || d = '.') with
      | ':' :: _ =>
        some ((c :: rest.takeWhile (fun d => d.isAlphanum || d = '+' || d = '-' || d = '.')).map
          Char.toLower)
      | _ => none
    else none

/-- Embedding of `MessageValidator.validateUrl` from the canonical `utils.ts` revision:
`new URL(url)` must succeed and the protocol must be `http:` or `https:`
(the URL constructor itself is modelled by `urlScheme`, see its comment). -/
def validateUrl (url : Str) : Bool :=
  match urlScheme url with
  | some sch => sch = S "http" || sch = S "https"
  | none => false

/-! ## Sanitizer scanners (`MarkdownMessageHandler.sanitizeMarkdown`)

Each regex pass is a deterministic left-to-right scanner; on a failed match the
scanner advances one character, exactly as the regex engine does. -/

/-- Length bound used by the scanner termination proofs. -/
theorem length_dropWhile_le (p : Char → Bool) (l : Str) :
    (l.dropWhile p).length ≤ l.length :=
  (List.dropWhile_sublist p).length_le

/-- Length bound used by the scanner termination proofs. -/
theorem dropWhile_cons_length {p : Char → Bool} {l t : Str} {c : Char}
    (h : l.dropWhile p = c :: t) : t.length < l.length := by
  have hle : (l.dropWhile p).length ≤ l.length := length_dropWhile_le p l
  rw [h] at hle
  simpa using Nat.lt_of_succ_le hle

/-- Inner loop of the script-tag regex `(?:(?!<\/script>)<[^<]*)*<\/script>`:
the scanner stands on a `<` (or at the end); it either closes with
`</script>` (case-insensitively) or consumes `<[^<]*` and moves to the next
`<`. -/
def scriptClose (s : Str) : Option Str :=
  match s with
  | [] => none
  | c :: rest =>
    if startsWithCI (S "</script>") (c :: rest) then some ((c :: rest).drop 9)
    else if c = '<' then scriptClose (rest.dropWhile (· ≠ '<'))
    else none
termination_by s.length
decreasing_by
  simp only [List.length_cons]
  exact Nat.lt_succ_of_le (length_dropWhile_le _ rest)

theorem scriptClose_length {s : Str} : ∀ {t : Str}, scriptClose s = some t →
    t.length ≤ s.length := by
  induction s using scriptClose.induct with
  | case1 =>
    intro t h
    simp [scriptClose] at h
  | case2 c rest hpre =>
    intro t h
    simp only [scriptClose, if_pos hpre] at h
    cases h
    have hd : ((c :: rest).drop 9).length = (c :: rest).length - 9 :=
      List.length_drop 9 (c :: rest)
    omega
  | case3 rest hpre ih =>
    intro t h
    simp only [scriptClose, if_neg hpre, if_pos rfl] at h
    have h1 := ih h
    have h2 := length_dropWhile_le (· ≠ '<') rest
    simp only [List.length_cons]
    omega
  | case4 c rest hpre hc =>
    intro t h
    simp [scriptClose, hpre, hc] at h

/-- One attempted match of `/<script\b[^<]*(?:(?!<\/script>)<[^<]*)*<\/script>/i`
at the current position; `some rest` is the remainder after the match. -/
def matchScriptAt (s : Str) : Option Str :=
  if startsWithCI (S "<script") s then
    let rest := s.drop 7
    let boundaryOk : Bool :=
      match rest with
      | [] => true
      | d :: _ => ¬ isWordChar d
    if boundaryOk then scriptClose (rest.dropWhile (· ≠ '<')) else none
  else none

theorem startsWithCI_length {p s : Str} (h : startsWithCI p s = true) :
    p.length ≤ s.length := by
  induction p generalizing s with
  | nil => simp
  | cons a ps ih =>
    cases s with
    | nil => simp [startsWithCI] at h
    | cons c cs =>
      simp only [startsWithCI, Bool.and_eq_true] at h
      simpa using ih h.2

theorem matchScriptAt_length {s t : Str} (h : matchScriptAt s = some t) :
    t.length < s.length := by
  unfold matchScriptAt at h
  by_cases hpre : startsWithCI (S "<script") s = true
  · simp only [hpre, if_true] at h
    split at h
    · have h1 := scriptClose_length h
      have h2 : ((s.drop 7).dropWhile (· ≠ '<')).length ≤ (s.drop 7).length :=
        length_dropWhile_le _ (s.drop 7)
      have h3 : 7 ≤ s.length := startsWithCI_length hpre
      have h4 : (s.drop 7).length = s.length - 7 := List.length_drop 7 s
      omega
    · cases h
  · simp [hpre] at h

/-- Global replace of the script-block regex by the empty string (first step of
`sanitizeMarkdown`). -/
def stripScriptTags (s : Str) : Str :=
  match s with
  | [] => []
  | c :: rest =>
    match h : matchScriptAt (c :: rest) with
    | some rest2 => stripScriptTags rest2
    | none => c :: stripScriptTags rest
termination_by s.length
decreasing_by
  all_goals first
    | exact matchScriptAt_length h
    | simp

/-- Skip forward through the first `>`; `none` when there is no `>` left
(the lazy tag regex `<[^>]*?>` then fails at this position). -/
def dropThroughGt : Str → Option Str
  | [] => none
  | c :: rest => if c = '>' then some rest else dropThroughGt rest

theorem dropThroughGt_length {s t : Str} (h : dropThroughGt s = some t) :
    t.length < s.length := by
  induction s with
  | nil => simp [dropThroughGt] at h
  | cons c rest ih =>
    by_cases hc : c = '>'
    · simp only [dropThroughGt, if_pos hc] at h
      cases h
      simp
    · simp only [dropThroughGt, if_neg hc] at h
      have := ih h
      simp only [List.length_cons]
      omega

/-- Global replace of `/<[^>]*?>/g` by the empty string (second step of
`sanitizeMarkdown`). -/
def stripHtmlTags (s : Str) : Str :=
  match s with
  | [] => []
  | c :: rest =>
    if c = '<' then
      match h : dropThroughGt rest with
      | some rest2 => stripHtmlTags rest2
      | none => c :: stripHtmlTags rest
    else c :: stripHtmlTags rest
termination_by s.length
decreasing_by
  all_goals first
    | (have hlen := dropThroughGt_length h
       simp only [List.length_cons]
       omega)
    | simp

/-- Global replace of the link regex `/\[([^\]]*)\]\(([^)]*)\)/g` (third step of
`sanitizeMarkdown`): a link whose URL passes `validateUrl` is kept verbatim,
otherwise the whole construct is replaced by its text. -/
def filterLinks (s : Str) : Str :=
  match s with
  | [] => []
  | c :: rest =>
    if c = '[' then
      match h : rest.dropWhile (· ≠ ']') with
      | ']' :: '(' :: rest2 =>
        match h2 : rest2.dropWhile (· ≠ ')') with
        | ')' :: rest3 =>
          (if validateUrl (rest2.takeWhile (· ≠ ')')) then
            '[' :: rest.takeWhile (· ≠ ']') ++ ']' :: '(' ::
              rest2.takeWhile (· ≠ ')') ++ [')']
          else rest.takeWhile (· ≠ ']')) ++ filterLinks rest3
        | _ => c :: filterLinks rest
      | _ => c :: filterLinks rest
    else c :: filterLinks rest
termination_by s.length
decreasing_by
  all_goals first
    | (have hb2 : rest3.length < rest2.length := dropWhile_cons_length h2
       have hb : (']' :: '(' :: rest2).length ≤ rest.length := by
         rw [← h]
         exact length_dropWhile_le _ rest
       simp only [List.length_cons] at *
       omega)
    | simp

/-- Count of non-overlapping matches of three consecutive backticks
(`content.match(/```/g)`). -/
def countTriple : Str → Nat
  | c1 :: c2 :: c3 :: rest =>
    if c1 = backtick ∧ c2 = backtick ∧ c3 = backtick then countTriple rest + 1
    else countTriple (c2 :: c3 :: rest)
  | _ => 0

/-- Find the closing triple backtick of a lazily matched fenced block; `some`
returns the remainder after it. -/
def findTripleClose : Str → Option Str
  | c1 :: c2 :: c3 :: rest =>
    if c1 = backtick ∧ c2 = backtick ∧ c3 = backtick then some rest
    else findTripleClose (c2 :: c3 :: rest)
  | _ => none

theorem findTripleClose_length {s : Str} : ∀ {t : Str}, findTripleClose s = some t →
    t.length < s.length := by
  induction s using findTripleClose.induct with
  | case1 c1 c2 c3 rest hb =>
    intro t h
    simp only [findTripleClose, if_pos hb] at h
    cases h
    simp only [List.length_cons]
    omega
  | case2 c1 c2 c3 rest hb ih =>
    intro t h
    simp only [findTripleClose, if_neg hb] at h
    have := ih h
    simp only [List.length_cons] at *
    omega
  | case3 s hs =>
    intro t h
    match s, hs with
    | [], _ => simp [findTripleClose] at h
    | [a], _ => simp [findTripleClose] at h
    | [a, b], _ => simp [findTripleClose] at h
    | a :: b :: c :: s3, hs => exact absurd rfl (hs a b c s3)

/-- Global replace of `/```[\s\S]*?```/g` by the empty string (used before
counting unmatched inline backticks). -/
def removeCodeBlocks (s : Str) : Str :=
  match s with
  | c1 :: c2 :: c3 :: rest =>
    if c1 = backtick ∧ c2 = backtick ∧ c3 = backtick then
      match h : findTripleClose rest with
      | some rest2 => removeCodeBlocks rest2
      | none => c1 :: c2 :: c3 :: removeCodeBlocks rest
    else c1 :: removeCodeBlocks (c2 :: c3 :: rest)
  | s => s
termination_by s.length
decreasing_by
  all_goals first
    | (have hlen := findTripleClose_length h
       simp only [List.length_cons]
       omega)
    | (simp only [List.length_cons]; omega)

/-- Count of non-overlapping matches of `/\*\*/g`. -/
def countBoldPairs : Str → Nat
  | c1 :: c2 :: rest =>
    if c1 = '*' ∧ c2 = '*' then countBoldPairs rest + 1
    else countBoldPairs (c2 :: rest)
  | _ => 0

/-- Global replace of `/\*\*[^*]*\*\*/g` by the empty string (bold spans are
removed before counting italic markers). -/
def removeBoldSpans (s : Str) : Str :=
  match s with
  | c1 :: c2 :: rest =>
    if c1 = '*' ∧ c2 = '*' then
      match h : rest.dropWhile (· ≠ '*') with
      | d1 :: d2 :: rest2 =>
        if d1 = '*' ∧ d2 = '*' then removeBoldSpans rest2
        else c1 :: removeBoldSpans (c2 :: rest)
      | _ => c1 :: removeBoldSpans (c2 :: rest)
    else c1 :: removeBoldSpans (c2 :: rest)
  | s => s
termination_by s.length
decreasing_by
  all_goals first
    | (have h1 : (d2 :: rest2).length < rest.length := dropWhile_cons_length h
       simp only [List.length_cons] at *
       omega)
    | (simp only [List.length_cons]; omega)

/-- Count of matches of `/(?<!\*)\*(?!\*)/g`: single asterisks with no asterisk
neighbour.  The boolean argument records whether the previous character was an
asterisk. -/
def countIsolatedStars (prevStar : Bool) : Str → Nat
  | [] => 0
  | c :: rest =>
    if c = '*' then
      (if prevStar = false ∧ rest.head? ≠ some '*' then 1 else 0) +
        countIsolatedStars true rest
    else countIsolatedStars false rest

/-- Embedding of `MarkdownMessageHandler.fixCodeBlocks`: append a closing fence when the
count of triple backticks is odd, then append a single backtick when the count
of backticks outside fenced blocks is odd. -/
def fixCodeBlocks (content : Str) : Str :=
  let content := if countTriple content % 2 = 1 then content ++ S "\n```" else content
  let without := removeCodeBlocks content
  if without.count backtick % 2 = 1 then content ++ [backtick] else content

/-- Embedding of `MarkdownMessageHandler.fixBoldSyntax` (renamed `fixBold` here): append a
closing `**` when the count of double-asterisk markers is odd. -/
def fixBold (content : Str) : Str :=
  if countBoldPairs content % 2 = 1 then content ++ S "**" else content

/-- Embedding of `MarkdownMessageHandler.fixItalicSyntax` (renamed `fixItalic` here): append
a closing `*` when, after removing bold spans, the count of isolated asterisks
is odd. -/
def fixItalic (content : Str) : Str :=
  if countIsolatedStars false (removeBoldSpans content) % 2 = 1 then content ++ ['*']
  else content

/-- Embedding of `MarkdownMessageHandler.sanitizeMarkdown`: strip script blocks, strip
remaining tags, filter links by URL validity, then run the three balance
repairs in source order. -/
def sanitizeMarkdown (content : Str) : Str :=
  fixItalic (fixBold (fixCodeBlocks (filterLinks (stripHtmlTags (stripScriptTags content)))))

/-! ## Message handler configuration (`BaseMessageHandler`) -/

/-- Embedding of `MessageHandlerConfig` with the defaults installed by the
`BaseMessageHandler` constructor. -/
structure MessageHandlerConfig where
  maxContentLength : Nat := 4096
  maxImageSize : Nat := 2 * 1024 * 1024
  supportedImageTypes : List Str := [S "jpg", S "jpeg", S "png"]
  maxArticleCount : Nat := 8
  maxTitleLength : Nat := 128
  maxDescriptionLength : Nat := 512

/-- The default handler configuration (no overrides supplied). -/
def defaultHandlerConfig : MessageHandlerConfig := {}

/-! ## Text message handler (`TextMessageHandler.formatMessage`) -/

/-- Iteration of JavaScript `new Set(xs)`: keep an element when it has not
been seen yet. -/
def jsSetDedupAux (seen : List Str) : List Str → List Str
  | [] => []
  | a :: l =>
    if a ∈ seen then jsSetDedupAux seen l
    else a :: jsSetDedupAux (a :: seen) l

/-- JavaScript `Array.from(new Set(xs))`: de-duplication keeping the first
occurrence of each element, in insertion order. -/
def jsSetDedup (l : List Str) : List Str := jsSetDedupAux [] l

/-- The phone regex `/^1[3-9]\d{9}$/`. -/
def matchesPhone (s : Str) : Bool :=
  match s with
  | '1' :: d :: rest =>
    decide ('3' ≤ d) && decide (d ≤ '9') && decide (rest.length = 9) &&
      rest.all Char.isDigit
  | _ => false

/-- The `text` payload of a formatted text message (optional fields are omitted
from the wire object when `none`). -/
structure TextPayload where
  content : Str
  mentioned_list : Option (List Str) := none
  mentioned_mobile_list : Option (List Str) := none
deriving DecidableEq

/-- A formatted text message. -/
structure TextMessage where
  msgtype : Str := S "text"
  text : TextPayload
deriving DecidableEq

/-- The text-relevant fields of `NodeInputData`. -/
structure TextInput where
  content : Option Str := none
  mentionedUsers : Option (List Str) := none
  mentionedMobiles : Option (List Str) := none

/-- Embedding of `TextMessageHandler.formatMessage`: reject blank content, truncate over-long
content, then attach the filtered and de-duplicated mention lists (a list that
ends up empty is left out of the message). -/
def formatTextMessage (cfg : MessageHandlerConfig) (input : TextInput) :
    Except Str TextMessage :=
  let content := input.content.getD []
  if isEmptyOrWhitespace content then .error (S "文本消息内容不能为空")
  else
    let content :=
      if content.length > cfg.maxContentLength then
        truncateString content (cfg.maxContentLength - 10) (S "...(已截断)")
      else content
    let ml : Option (List Str) :=
      match input.mentionedUsers with
      | some us =>
        if us.length > 0 then
          let filteredUsers := us.filter (fun u => !isEmptyOrWhitespace u)
          let uniqueUsers := jsSetDedup filteredUsers
          if uniqueUsers.length > 0 then some uniqueUsers else none
        else none
      | none => none
    let mml : Option (List Str) :=
      match input.mentionedMobiles with
      | some ms =>
        if ms.length > 0 then
          let filteredMobiles :=
            (ms.filter (fun m => !isEmptyOrWhitespace m)).filter matchesPhone
          let uniqueMobiles := jsSetDedup filteredMobiles
          if uniqueMobiles.length > 0 then some uniqueMobiles else none
        else none
      | none => none
    .ok { text := { content := content, mentioned_list := ml, mentioned_mobile_list := mml } }

/-! ## Image message handler (`ImageMessageHandler.formatMessage`) -/

/-- The base64 alphabet value of a character, `none` outside the alphabet. -/
def b64Val (c : Char) : Option Nat :=
  if 'A' ≤ c ∧ c ≤ 'Z' then some (c.toNat - 65)
  else if 'a' ≤ c ∧ c ≤ 'z' then some (c.toNat - 97 + 26)
  else if '0' ≤ c ∧ c ≤ '9' then some (c.toNat - 48 + 52)
  else if c = '+' then some 62
  else if c = '/' then some 63
  else none

/-- Pack a list of sextet values into bytes, dropping a trailing incomplete
byte, as the base64 decoder of Node does. -/
def b64DecodeVals : List Nat → List Nat
  | a :: b :: c :: d :: rest =>
    (a * 4 + b / 16) :: ((b % 16) * 16 + c / 4) :: ((c % 4) * 64 + d) ::
      b64DecodeVals rest
  | [a, b, c] => [a * 4 + b / 16, (b % 16) * 16 + c / 4]
  | [a, b] => [a * 4 + b / 16]
  | _ => []

/-- Model of Node `Buffer.from(str, 'base64')`: characters outside the base64
alphabet (including padding and whitespace) are skipped, the remaining sextets
are packed into bytes. -/
def b64Decode (s : Str) : List Nat :=
  b64DecodeVals (s.filterMap b64Val)

/-- The base64 digit for a sextet value. -/
def b64EncChar (n : Nat) : Char :=
  if n < 26 then Char.ofNat (65 + n)
  else if n < 52 then Char.ofNat (97 + (n - 26))
  else if n < 62 then Char.ofNat (48 + (n - 52))
  else if n = 62 then '+'
  else '/'

/-- Model of Node `buffer.toString('base64')`: standard base64 with `=`
padding. -/
def b64Encode : List Nat → Str
  | b1 :: b2 :: b3 :: rest =>
    b64EncChar (b1 / 4) :: b64EncChar (b1 % 4 * 16 + b2 / 16) ::
      b64EncChar (b2 % 16 * 4 + b3 / 64) :: b64EncChar (b3 % 64) :: b64Encode rest
  | [b1, b2] =>
    [b64EncChar (b1 / 4), b64EncChar (b1 % 4 * 16 + b2 / 16),
      b64EncChar (b2 % 16 * 4), '=']
  | [b1] => [b64EncChar (b1 / 4), b64EncChar (b1 % 4 * 16), '=', '=']
  | [] => []

/-- Membership in the base64 character class `[A-Za-z0-9+/]`. -/
def isB64Char (c : Char) : Bool := (b64Val c).isSome

/-- The regex `/^[A-Za-z0-9+\/]*={0,2}$/` from `isValidBase64` (the character
class and `=` are disjoint, so the greedy scan is deterministic). -/
def b64RegexOk (s : Str) : Bool :=
  let rest := s.dropWhile isB64Char
  rest.all (· = '=') && decide (rest.length ≤ 2)

/-- JavaScript `str.replace(/=+$/, '')`: strip trailing padding. -/
def rstripEq (s : Str) : Str :=
  (s.reverse.dropWhile (· = '=')).reverse

/-- Embedding of `ImageMessageHandler.isValidBase64`: the character-class regex must match
and decoding then re-encoding must reproduce the string up to padding. -/
def isValidBase64 (s : Str) : Bool :=
  b64RegexOk s && decide (rstripEq s = rstripEq (b64Encode (b64Decode s)))

/-- The prefix regex `/^data:image\/[a-z]+;base64,/i` of `cleanBase64String`. -/
def stripDataImageMark (s : Str) : Str :=
  if startsWithCI (S "data:image/") s then
    let rest := s.drop 11
    let run := rest.takeWhile Char.isAlpha
    let rest2 := rest.dropWhile Char.isAlpha
    if decide (0 < run.length) && startsWithCI (S ";base64,") rest2 then rest2.drop 8
    else s
  else s

/-- Embedding of `ImageMessageHandler.cleanBase64String`: strip a data-URL prefix, then
remove all whitespace. -/
def cleanBase64String (s : Str) : Str :=
  (stripDataImageMark s).filter (fun c => !c.isWhitespace)

/-- Embedding of `ImageMessageHandler.calculateBase64Size`, which computes `(len*3)/4 - padding` in
JavaScript float arithmetic; the value is exact in quarters of a byte, so the
model returns it scaled by 4. -/
def calculateBase64SizeQuarters (s : Str) : Int :=
  (s.length * 3 : Int) - 4 * (s.count '=')

/-- Embedding of `ImageMessageHandler.detectImageType`: sniff the format from the first four
decoded bytes. -/
def detectImageType (s : Str) : Str :=
  match b64Decode s with
  | b0 :: b1 :: b2 :: b3 :: _ =>
    if b0 = 0x89 ∧ b1 = 0x50 ∧ b2 = 0x4E ∧ b3 = 0x47 then S "png"
    else if b0 = 0xFF ∧ b1 = 0xD8 ∧ b2 = 0xFF then S "jpg"
    else if b0 = 0x47 ∧ b1 = 0x49 ∧ b2 = 0x46 ∧ b3 = 0x38 then S "gif"
    else S "unknown"
  | _ => S "unknown"

/-- Join a list of strings with a separator (JavaScript `Array.join`). -/
def joinSep (sep : Str) : List Str → Str
  | [] => []
  | [x] => x
  | x :: rest => x ++ sep ++ joinSep sep rest

/-- The errors thrown by `ImageMessageHandler.formatMessage`, as structured
values carrying the data that the source interpolates into the message text. -/
inductive ImgErr where
  | urlConversionUnimplemented
  | emptyBase64
  | invalidBase64
  | tooLarge (sizeQuarters : Int) (maxBytes : Nat)
  | unsupportedFormat (detected : Str) (supported : List Str)
deriving DecidableEq

/-- A formatted image message. -/
structure ImageMessage where
  msgtype : Str := S "image"
  base64 : Str
  md5 : Str
deriving DecidableEq

/-- The image-relevant fields of `NodeInputData`. -/
structure ImageInput where
  imageBase64 : Option Str := none
  imageUrl : Option Str := none

/-- Embedding of `ImageMessageHandler.formatMessage`.  The MD5 digest of the decoded bytes
(`Utils.calculateBase64MD5`, Node `crypto`) is supplied as an oracle
`md5OfBytes`; no claim depends on the digest value. -/
def formatImageMessage (cfg : MessageHandlerConfig) (md5OfBytes : List Nat → Str)
    (input : ImageInput) : Except ImgErr ImageMessage :=
  let base64 := input.imageBase64.getD []
  let urlTruthy : Bool :=
    match input.imageUrl with
    | some u => !u.isEmpty
    | none => false
  if urlTruthy && base64.isEmpty then .error .urlConversionUnimplemented
  else if isEmptyOrWhitespace base64 then .error .emptyBase64
  else
    let b := cleanBase64String base64
    if !isValidBase64 b then .error .invalidBase64
    else if calculateBase64SizeQuarters b > 4 * cfg.maxImageSize then
      .error (.tooLarge (calculateBase64SizeQuarters b) cfg.maxImageSize)
    else
      let imageType := detectImageType b
      if !cfg.supportedImageTypes.contains imageType then
        .error (.unsupportedFormat imageType cfg.supportedImageTypes)
      else .ok { base64 := b, md5 := md5OfBytes (b64Decode b) }

/-! ## Error classifier (`ErrorHandler`) -/

/-- The JavaScript error values thrown inside the delivery pipeline: either a
plain `Error` (with its `name` and `message`) or a `WeworkApiError` carrying a
numeric code. -/
inductive JsError where
  | plain (name : Str) (message : Str)
  | wework (code : Int) (message : Str)
deriving DecidableEq

/-- The `message` property of an error. -/
def JsError.msg : JsError → Str
  | .plain _ m => m
  | .wework _ m => m

/-- The static error-message lookup table of `ErrorHandler.getErrorMessage`. -/
def errorMessageTable : List (Int × Str) := [
  (0, S "请求成功"),
  ((-1 : Int), S "系统繁忙，此时请开发者稍候再试"),
  (40001, S "参数错误"),
  (40002, S "不合法的凭证类型"),
  (40003, S "不合法的OpenID，请开发者确认OpenID（该用户）是否已关注公众号，或是否是其他公众号的OpenID"),
  (40004, S "不合法的媒体文件类型"),
  (40005, S "不合法的文件类型"),
  (40006, S "不合法的文件大小"),
  (40007, S "不合法的媒体文件id"),
  (40008, S "不合法的消息类型"),
  (40009, S "不合法的图片文件大小"),
  (40010, S "不合法的语音文件大小"),
  (40011, S "不合法的视频文件大小"),
  (40012, S "不合法的缩略图文件大小"),
  (40013, S "不合法的AppID，请开发者检查AppID的正确性，避免异常字符，注意大小写"),
  (40014, S "不合法的access_token，请开发者认真比对access_token的有效性（如是否过期），或查看是否正在为恰当的公众号调用接口"),
  (40015, S "不合法的菜单类型"),
  (40016, S "不合法的按钮个数"),
  (40017, S "不合法的按钮个数"),
  (40018, S "不合法的按钮名字长度"),
  (40019, S "不合法的按钮KEY长度"),
  (40020, S "不合法的按钮URL长度"),
  (40021, S "不合法的菜单版本号"),
  (40022, S "不合法的子菜单级数"),
  (40023, S "不合法的子菜单按钮个数"),
  (40024, S "不合法的子菜单按钮类型"),
  (40025, S "不合法的子菜单按钮名字长度"),
  (40026, S "不合法的子菜单按钮KEY长度"),
  (40027, S "不合法的子菜单按钮URL长度"),
  (40028, S "不合法的自定义菜单使用用户"),
  (40029, S "不合法的oauth_code"),
  (40030, S "不合法的refresh_token"),
  (40031, S "不合法的openid列表"),
  (40032, S "不合法的openid列表长度"),
  (40033, S "不合法的请求字符，不能包含\\uxxxx格式的字符"),
  (40035, S "不合法的参数"),
  (40038, S "不合法的请求格式"),
  (40039, S "不合法的URL长度"),
  (40050, S "不合法的分组id"),
  (40051, S "分组名字不合法"),
  (40117, S "分组名字不合法"),
  (40118, S "media_id大小不合法"),
  (40119, S "button类型错误"),
  (40120, S "button类型错误"),
  (40121, S "不合法的media_id类型"),
  (40132, S "微信号不合法"),
  (40137, S "不支持的图片格式"),
  (41001, S "缺少access_token参数"),
  (41002, S "缺少appid参数"),
  (41003, S "缺少refresh_token参数"),
  (41004, S "缺少secret参数"),
  (41005, S "缺少多媒体文件数据"),
  (41006, S "缺少media_id参数"),
  (41007, S "缺少子菜单数据"),
  (41008, S "缺少oauth code"),
  (41009, S "缺少openid"),
  (42001, S "access_token超时，请检查access_token的有效期，请参考基础支持-获取access_token中，对access_token的详细机制说明"),
  (42002, S "refresh_token超时"),
  (42003, S "oauth_code超时"),
  (42007, S "用户修改微信密码，accesstoken和refreshtoken失效，需要重新授权"),
  (43001, S "需要GET请求"),
  (43002, S "需要POST请求"),
  (43003, S "需要HTTPS请求"),
  (43004, S "需要接收者关注"),
  (43005, S "需要好友关系"),
  (43019, S "需要将接收者从黑名单中移除"),
  (44001, S "多媒体文件为空"),
  (44002, S "POST的数据包为空"),
  (44003, S "图文消息内容为空"),
  (44004, S "文本消息内容为空"),
  (45001, S "多媒体文件大小超过限制"),
  (45002, S "消息内容超过限制"),
  (45003, S "标题字段超过限制"),
  (45004, S "描述字段超过限制"),
  (45005, S "链接字段超过限制"),
  (45006, S "图片链接字段超过限制"),
  (45007, S "语音播放时间超过限制"),
  (45008, S "图文消息超过限制"),
  (45009, S "接口调用超过限制"),
  (45010, S "创建菜单个数超过限制"),
  (45015, S "回复时间超过限制"),
  (45016, S "系统分组，不允许修改"),
  (45017, S "分组名字过长"),
  (45018, S "分组数量超过上限"),
  (45047, S "客服接口下行条数超过上限"),
  (46001, S "不存在媒体数据"),
  (46002, S "不存在的菜单版本"),
  (46003, S "不存在的菜单数据"),
  (46004, S "不存在的用户"),
  (47001, S "解析JSON/XML内容错误"),
  (48001, S "api功能未授权，请确认公众号已获得该接口，可以在公众平台官网-开发者中心页中查看接口权限"),
  (48002, S "粉丝拒收消息（粉丝在公众号选项中，关闭了\"接收消息\"）"),
  (48004, S "api接口被封禁，请登录mp.weixin.qq.com查看详情"),
  (48005, S "api禁止删除被自动回复和自定义菜单引用的素材"),
  (48006, S "api禁止清零调用次数，因为清零次数达到上限"),
  (48008, S "没有该类型消息的发送权限"),
  (50001, S "用户未授权该api"),
  (50002, S "用户受限，可能是违规后接口被封禁"),
  (50005, S "用户未关注公众号"),
  (61451, S "参数错误(invalid parameter)"),
  (61452, S "无效客服账号(invalid kf_account)"),
  (61453, S "客服帐号已存在(kf_account exsited)"),
  (61454, S "客服帐号名长度超过限制(仅允许10个英文字符，不包括@及@后的公众号的微信号)(invalid kf_acount length)"),
  (61455, S "客服帐号名包含非法字符(仅允许英文+数字)(illegal character in kf_account)"),
  (61456, S "客服帐号个数超过限制(10个客服账号)(kf_account count exceeded)"),
  (61457, S "无效头像文件类型(invalid file type)"),
  (61450, S "系统错误(system error)"),
  (61500, S "日期格式错误"),
  (93000, S "Webhook URL无效或已过期"),
  (300001, S "缺少参数"),
  (300002, S "https请求"),
  (300003, S "userid错误"),
  (300004, S "客户端ip非法"),
  (300005, S "客户端未注册"),
  (300006, S "参数错误"),
  (300007, S "非法操作"),
  (300008, S "非法字符"),
  (300009, S "缺少参数"),
  (300010, S "文件大小超限"),
  (300011, S "非法的文件类型"),
  (300012, S "非法的文件名"),
  (300013, S "应用不存在"),
  (300014, S "成员不存在"),
  (300015, S "不合法的文件大小"),
  (300016, S "不合法的文件名长度"),
  (300017, S "不合法的文件内容"),
  (300018, S "不合法的文件类型"),
  ((-2 : Int), S "请求超时"),
  ((-3 : Int), S "网络连接失败"),
  ((-4 : Int), S "URL格式无效"),
  ((-5 : Int), S "响应数据格式错误")
]

/-- Embedding of `ErrorHandler.getErrorMessage`: curated message when the code is in the
table, else the trimmed raw `errmsg`, else a generic unknown-error string. -/
def getErrorMessage (errcode : Int) (errmsg : Str) : Str :=
  match (errorMessageTable.find? (fun e => e.1 = errcode)).map (·.2) with
  | some m => m
  | none =>
    if !(jsTrim errmsg).isEmpty then jsTrim errmsg
    else S "未知的企业微信API错误 (错误码: " ++ S (toString errcode) ++ S ")"

/-- A parsed `{errcode, errmsg}` response envelope. -/
structure ApiResponse where
  errcode : Int
  errmsg : Str
deriving DecidableEq

/-- Embedding of `ErrorHandler.createApiError`: wrap a non-zero response as a
`WeworkApiError` with the classified message. -/
def createApiErr (resp : ApiResponse) : JsError :=
  .wework resp.errcode (getErrorMessage resp.errcode resp.errmsg)

/-- Embedding of `ErrorHandler.isRetryableError`: membership in the fixed allow-list. -/
def isRetryableError (code : Int) : Bool :=
  ([-1, -2, -3, 42001, 42002, 45009] : List Int).contains code

/-- The message-substring classification of `ErrorHandler.createGenericError`,
returning the synthetic code and replacement message. -/
def classifyGenericMessage (message : Str) : Int × Str :=
  if containsSub (S "超时") message || containsSub (S "timeout") message then
    (-2, S "请求超时，请检查网络连接")
  else if containsSub (S "网络") message || containsSub (S "network") message ||
      containsSub (S "fetch") message then
    (-3, S "网络连接失败，请检查网络设置")
  else if containsSub (S "URL") message || containsSub (S "url") message then
    (-4, S "无效的webhook URL格式")
  else if containsSub (S "JSON") message || containsSub (S "parse") message then
    (-5, S "响应数据格式错误")
  else (-1, message)

/-- Embedding of `ErrorHandler.createGenericError` (default code `-1`): a `WeworkApiError`
passes through unchanged, a plain error is classified by message substrings. -/
def createGenericError (e : JsError) : JsError :=
  match e with
  | .wework _ _ => e
  | .plain _ message =>
    .wework (classifyGenericMessage message).1 (classifyGenericMessage message).2

/-! ## Delivery client (`WeworkApiClient`) -/

/-- Embedding of `ApiClientConfig` with the constructor defaults. -/
structure ApiClientConfig where
  timeout : Nat := 30000
  maxRetries : Nat := 3
  retryDelay : Nat := 1000
  retryBackoffFactor : Nat := 2
  enableLogging : Bool := true

/-- The client configuration installed by the `WeworkApiClient` constructor
with no overrides (and by `WeworkBot.execute`, which passes the same values). -/
def defaultClientConfig : ApiClientConfig := {}

/-- A JSON value (response bodies and logger payloads). -/
inductive Json where
  | null
  | bool (b : Bool)
  | num (n : Int)
  | str (s : Str)
  | arr (elems : List Json)
  | obj (fields : List (Str × Json))

/-- First-match lookup in the field list of an object. -/
def lookupField : List (Str × Json) → Str → Option Json
  | [], _ => none
  | (k0, v0) :: rest, k => if k0 = k then some v0 else lookupField rest k

/-- JavaScript property access `data[k]` on a JSON value (a JavaScript object
cannot carry duplicate keys, so first match decides). -/
def jsGetField : Json → Str → Option Json
  | .obj fields, k => lookupField fields k
  | _, _ => none

/-- Whether a value satisfies `data && typeof data === 'object'`. -/
def jsIsTruthyObject : Json → Bool
  | .obj _ => true
  | .arr _ => true
  | _ => false

/-- Embedding of `WeworkApiClient.parseApiResponse`: require an object with a numeric
`errcode` and a string `errmsg`. -/
def parseApiResponse (data : Json) : Except JsError ApiResponse :=
  if !jsIsTruthyObject data then
    .error (.plain (S "Error") (S "无效的API响应格式"))
  else
    match jsGetField data (S "errcode") with
    | some (.num ec) =>
      match jsGetField data (S "errmsg") with
      | some (.str em) => .ok ⟨ec, em⟩
      | _ => .error (.plain (S "Error") (S "API响应缺少errmsg字段"))
    | _ => .error (.plain (S "Error") (S "API响应缺少errcode字段"))

/-- The outcome of one physical HTTP exchange, supplied by the transport
oracle: either a response body, or a thrown transport error (optionally
carrying an attached error-response body, as the HTTP helper does for non-2xx
statuses). -/
inductive TransportOutcome where
  | ok (body : Json)
  | err (name : Str) (message : Str) (responseBody : Option Json)

/-- The final error rewrites of the `makeHttpRequest` catch block: a
`RequestError` mentioning `timeout` becomes the fixed timeout message, and a
message mentioning `Invalid URI` becomes the invalid-URL message. -/
def applyCatchRewrites (cfg : ApiClientConfig) (e : JsError) : JsError :=
  match e with
  | .wework _ m =>
    if containsSub (S "Invalid URI") m then
      .plain (S "Error") (S "无效的webhook URL格式")
    else e
  | .plain n m =>
    if n = S "RequestError" && containsSub (S "timeout") m then
      .plain (S "Error") (S "请求超时 (" ++ S (toString cfg.timeout) ++ S "ms)")
    else if containsSub (S "Invalid URI") m then
      .plain (S "Error") (S "无效的webhook URL格式")
    else e

/-- The catch block of `makeHttpRequest` applied to a thrown transport error:
when the error carries an object body that parses as an API envelope it is
replaced by the classified API error, then the final rewrites run. -/
def processHttpCatch (cfg : ApiClientConfig) (name message : Str)
    (responseBody : Option Json) : JsError :=
  let processed : JsError :=
    match responseBody with
    | some b =>
      if jsIsTruthyObject b then
        match parseApiResponse b with
        | .ok resp => createApiErr resp
        | .error _ => .plain name message
      else .plain name message
    | none => .plain name message
  applyCatchRewrites cfg processed

/-- Model of the WHATWG URL components inspected by the client (the URL
constructor is host-platform code; see `parseJsUrl`). -/
structure JsUrl where
  protocol : Str
  hostname : Str
  pathname : Str
deriving DecidableEq

/-- Modelled from the spec: the WHATWG `URL` constructor
(external to this repository), restricted to the `scheme://host/path` shapes
the validators inspect.  Parsing fails without a scheme, without a `//`
authority, or with an empty host. -/
def parseJsUrl (s : Str) : Option JsUrl :=
  match urlScheme s with
  | none => none
  | some sch =>
    match (s.dropWhile (· ≠ ':')).drop 1 with
    | '/' :: '/' :: rest =>
      let authority := rest.takeWhile (fun c => !(c = '/' || c = '?' || c = '#'))
      let afterAuth := rest.dropWhile (fun c => !(c = '/' || c = '?' || c = '#'))
      let hostPort :=
        if authority.contains '@' then (authority.dropWhile (· ≠ '@')).drop 1
        else authority
      let hostname := (hostPort.takeWhile (· ≠ ':')).map Char.toLower
      if hostname.isEmpty then none
      else
        let pathname :=
          match afterAuth.takeWhile (fun c => !(c = '?' || c = '#')) with
          | [] => [ '/' ]
          | p => p
        some ⟨sch ++ [':'], hostname, pathname⟩
    | _ => none

/-- Embedding of `WeworkApiClient.isValidWebhookUrl`: HTTPS protocol, a hostname containing
the official API host, and a path mentioning `webhook` or `send`. -/
def isValidWebhookUrl (url : Str) : Bool :=
  match parseJsUrl url with
  | none => false
  | some u =>
    if u.protocol ≠ S "https:" then false
    else if !containsSub (S "qyapi.weixin.qq.com") u.hostname then false
    else if !containsSub (S "webhook") u.pathname &&
        !containsSub (S "send") u.pathname then false
    else true

/-- Embedding of `WeworkApiClient.shouldRetry`: substring match on the message first, then
the classifier verdict on the (possibly synthetic) code. -/
def shouldRetryClient (e : JsError) : Bool :=
  if containsSub (S "网络") e.msg || containsSub (S "超时") e.msg ||
      containsSub (S "fetch") e.msg then true
  else
    match e with
    | .wework c _ => isRetryableError c
    | .plain _ m => isRetryableError (classifyGenericMessage m).1

/-- Embedding of `WeworkApiClient.makeHttpRequest` for one attempt.  The boolean records
whether the transport was actually invoked (the guard failures throw before
any network activity).  `callIdx` indexes the transport oracle by the number
of previous physical calls. -/
def makeHttpRequest (cfg : ApiClientConfig) (hasHelpers : Bool) (url : Str)
    (transport : Nat → TransportOutcome) (callIdx : Nat) :
    Except JsError ApiResponse × Bool :=
  if !hasHelpers then (.error (.plain (S "Error") (S "HTTP helpers 未配置")), false)
  else if !isValidWebhookUrl url then
    (.error (.plain (S "Error") (S "无效的webhook URL格式")), false)
  else
    match transport callIdx with
    | .ok body =>
      match parseApiResponse body with
      | .error e => (.error (applyCatchRewrites cfg e), true)
      | .ok resp =>
        if resp.errcode ≠ 0 then
          (.error (applyCatchRewrites cfg (createApiErr resp)), true)
        else (.ok resp, true)
    | .err name message responseBody =>
      (.error (processHttpCatch cfg name message responseBody), true)

/-- The observable outcome of one `sendMessage` call: the returned response or
thrown error, the number of physical HTTP calls, and the backoff sleeps. -/
structure ClientRun where
  result : Except JsError ApiResponse
  calls : Nat
  sleeps : List Nat

/-- The retry loop of `WeworkApiClient.sendMessage`.  `fuel` is
`maxRetries + 1 - attempt`, the number of remaining loop entries allowed by
`while (attempt <= maxRetries)`; the fuel-0 case corresponds to exiting the
while loop with a null `lastError`, which cannot happen from the initial state
(`attempt = 0`, `maxRetries ≥ 0`). -/
def sendLoop (cfg : ApiClientConfig) (hasHelpers : Bool) (url : Str)
    (transport : Nat → TransportOutcome) :
    Nat → Nat → Nat → List Nat → ClientRun
  | 0, _, calls, sleeps =>
    ⟨.error (.plain (S "Error") (S "unreachable")), calls, sleeps⟩
  | fuel + 1, attempt, calls, sleeps =>
    match makeHttpRequest cfg hasHelpers url transport calls with
    | (.ok resp, called) =>
      ⟨.ok resp, calls + (if called then 1 else 0), sleeps⟩
    | (.error e, called) =>
      let calls2 := calls + (if called then 1 else 0)
      let attempt2 := attempt + 1
      if attempt2 > cfg.maxRetries then ⟨.error (createGenericError e), calls2, sleeps⟩
      else if !shouldRetryClient e then ⟨.error (createGenericError e), calls2, sleeps⟩
      else
        sendLoop cfg hasHelpers url transport fuel attempt2 calls2
          (sleeps ++ [cfg.retryDelay * cfg.retryBackoffFactor ^ (attempt2 - 1)])

/-- Embedding of `WeworkApiClient.sendMessage` over the transport oracle. -/
def clientSendMessage (cfg : ApiClientConfig) (hasHelpers : Bool) (url : Str)
    (transport : Nat → TransportOutcome) : ClientRun :=
  sendLoop cfg hasHelpers url transport (cfg.maxRetries + 1) 0 0 []

/-! ## API service (`WeworkApiService`) -/

/-- A news article of the wire format. -/
structure NewsArticleM where
  title : Str
  description : Option Str := none
  url : Str
  picurl : Option Str := none
deriving DecidableEq

/-- A formatted outbound message (the `WeworkMessage` tagged union; `other`
stands for a value with an unrecognised `msgtype`, the default branch of the
service validator). -/
inductive WeworkMessageM where
  | text (content : Str) (mentioned_list : Option (List Str))
      (mentioned_mobile_list : Option (List Str))
  | markdown (content : Str)
  | image (base64 : Str) (md5 : Str)
  | news (articles : List NewsArticleM)
  | file (media_id : Str)
  | other (msgtype : Str)
deriving DecidableEq

/-- The `msgtype` discriminator string of a message. -/
def WeworkMessageM.msgtype : WeworkMessageM → Str
  | .text _ _ _ => S "text"
  | .markdown _ => S "markdown"
  | .image _ _ => S "image"
  | .news _ => S "news"
  | .file _ => S "file"
  | .other t => t

/-- Embedding of `WeworkApiService.validateMessage` and its per-type helpers (`!x` guards on
strings model JavaScript falsiness of the empty string). -/
def serviceValidateMessage (m : WeworkMessageM) : Except JsError Unit :=
  match m with
  | .text content _ _ =>
    if content.isEmpty then .error (.plain (S "Error") (S "文本消息内容不能为空"))
    else if content.length > 4096 then
      .error (.plain (S "Error") (S "文本消息内容不能超过4096个字符"))
    else .ok ()
  | .markdown content =>
    if content.isEmpty then .error (.plain (S "Error") (S "Markdown消息内容不能为空"))
    else if content.length > 4096 then
      .error (.plain (S "Error") (S "Markdown消息内容不能超过4096个字符"))
    else .ok ()
  | .image base64 md5 =>
    if base64.isEmpty || md5.isEmpty then
      .error (.plain (S "Error") (S "图片消息必须包含base64编码和MD5值"))
    else .ok ()
  | .news articles =>
    if articles.length = 0 then
      .error (.plain (S "Error") (S "图文消息至少需要包含一篇文章"))
    else if articles.length > 8 then
      .error (.plain (S "Error") (S "图文消息最多只能包含8篇文章"))
    else .ok ()
  | .file media_id =>
    if media_id.isEmpty then
      .error (.plain (S "Error") (S "文件消息必须包含media_id"))
    else .ok ()
  | .other t => .error (.plain (S "Error") (S "不支持的消息类型: " ++ t))

/-- Embedding of `WeworkApiService.validateWebhookUrl` (the URL constructor is the
`parseJsUrl` model; its failure message mentions `Invalid URL`, which the
source maps to the fixed format error). -/
def serviceValidateWebhookUrl (url : Str) : Except JsError Unit :=
  if url.isEmpty then .error (.plain (S "Error") (S "Webhook URL不能为空"))
  else
    match parseJsUrl url with
    | none => .error (.plain (S "Error") (S "Webhook URL格式无效"))
    | some u =>
      if u.protocol ≠ S "https:" then
        .error (.plain (S "Error") (S "Webhook URL必须使用HTTPS协议"))
      else if !containsSub (S "qyapi.weixin.qq.com") u.hostname then
        .error (.plain (S "Error") (S "Webhook URL必须是企业微信官方域名"))
      else .ok ()

/-- The per-row output record (`NodeOutputData`). -/
structure NodeOutputData where
  success : Bool
  messageId : Option Str := none
  errorCode : Option Int := none
  errorMessage : Option Str := none
  timestamp : Nat
  messageType : Str
deriving DecidableEq

/-- Embedding of `WeworkApiService.createSuccessResult` (the random message id and the
clock are oracles `msgId` and `now`). -/
def createSuccessResult (m : WeworkMessageM) (resp : ApiResponse) (now : Nat)
    (msgId : Str) : NodeOutputData :=
  { success := true
    messageId := some msgId
    errorCode := some resp.errcode
    errorMessage := if resp.errcode = 0 then none else some resp.errmsg
    timestamp := now
    messageType := m.msgtype }

/-- Embedding of `WeworkApiService.createErrorResult`: code from a `WeworkApiError`, `-1`
otherwise; the message always carries over. -/
def createErrorResult (m : WeworkMessageM) (e : JsError) (now : Nat) :
    NodeOutputData :=
  { success := false
    errorCode := some (match e with | .wework c _ => c | .plain _ _ => (-1 : Int))
    errorMessage := some e.msg
    timestamp := now
    messageType := m.msgtype }

/-- Embedding of `WeworkApiService.sendMessage`: validate, delegate to the client, and map
both outcomes into a `NodeOutputData`; every raised error is caught and turned
into an error result, so the function is total by construction. -/
def serviceSendMessage (cfg : ApiClientConfig) (hasHelpers : Bool) (url : Str)
    (message : WeworkMessageM) (transport : Nat → TransportOutcome) (now : Nat)
    (msgId : Str) : NodeOutputData :=
  match serviceValidateMessage message with
  | .error e => createErrorResult message e now
  | .ok _ =>
    match serviceValidateWebhookUrl url with
    | .error e => createErrorResult message e now
    | .ok _ =>
      match (clientSendMessage cfg hasHelpers url transport).result with
      | .ok resp => createSuccessResult message resp now msgId
      | .error e => createErrorResult message e now

/-! ## Structured logger redaction (`WeworkLogger.maskSensitiveData`) -/

/-- The sensitive key substrings of `maskSensitiveData`. -/
def sensitiveKeys : List Str :=
  [S "webhook", S "webhookUrl", S "key", S "token", S "secret", S "password",
   S "authorization", S "auth", S "credential", S "api_key", S "apiKey"]

/-- Lowercase a modelled string. -/
def toLowerStr (s : Str) : Str := s.map Char.toLower

/-- Whether a key matches the sensitive list:
`sensitiveKeys.some(sk => key.toLowerCase().includes(sk.toLowerCase()))`. -/
def isSensitiveKey (k : Str) : Bool :=
  sensitiveKeys.any (fun sk => containsSub (toLowerStr sk) (toLowerStr k))

/-- The replacement applied to the value under a sensitive key: a string longer
than 8 characters keeps its first and last four characters around `****`, any
other value becomes `"****"`. -/
def maskValue (v : Json) : Json :=
  match v with
  | .str s =>
    if s.length > 8 then .str (s.take 4 ++ S "****" ++ s.drop (s.length - 4))
    else .str (S "****")
  | _ => .str (S "****")

mutual

/-- Embedding of `WeworkLogger.maskSensitiveData` (with masking enabled): walk objects and
arrays; a sensitive key gets `maskValue`, a non-sensitive key holding an object
or array is recursed into, and everything else is kept.  The `for..in` keys of
an array are its decimal indices, which never contain a sensitive substring, so
an array recurses into its object-like elements. -/
def maskJson : Json → Json
  | .obj fields => .obj (maskFields fields)
  | .arr elems => .arr (maskElems elems)
  | j => j

/-- Field traversal of `maskSensitiveData`. -/
def maskFields : List (Str × Json) → List (Str × Json)
  | [] => []
  | (k, v) :: rest =>
    (if isSensitiveKey k then (k, maskValue v)
     else
       match v with
       | .obj _ => (k, maskJson v)
       | .arr _ => (k, maskJson v)
       | _ => (k, v)) :: maskFields rest

/-- Element traversal of `maskSensitiveData` over an array copy. -/
def maskElems : List Json → List Json
  | [] => []
  | e :: rest =>
    (match e with
     | .obj _ => maskJson e
     | .arr _ => maskJson e
     | _ => e) :: maskElems rest

end

/-- The loop body of `maskSensitiveData` for one object entry, as a standalone
function of the key and value. -/
def maskFieldValue (k : Str) (v : Json) : Json :=
  if isSensitiveKey k then maskValue v
  else
    match v with
    | .obj _ => maskJson v
    | .arr _ => maskJson v
    | _ => v

/-- Path lookup through nested objects, for stating the redaction property. -/
def getPath : Json → List Str → Option Json
  | j, [] => some j
  | j, k :: p =>
    match jsGetField j k with
    | some v => getPath v p
    | none => none

/-! ## Orchestration (`WeworkBot.execute`) -/

/-- What processing one input row produced before the output push: a thrown
error during parameter resolution or formatting, a failed validation (the
source then throws the joined message), or a delivery outcome from
`WeworkApiService.sendMessage` together with the echoed input.  This oracle
summarises the per-row work whose internals are embedded separately. -/
inductive RowEval where
  | throwBefore (message : Str)
  | validationFailed (errors : List Str)
  | delivered (result : NodeOutputData) (input : Str)

/-- One output record of the node: the delivery fields plus the echoed input
(present on the normal path, absent on the catch path). -/
structure ExecRecord where
  data : NodeOutputData
  input : Option Str
deriving DecidableEq

/-- Render an optional value the way a JavaScript template literal renders
`undefined`. -/
def renderOptInt : Option Int → Str
  | some n => S (toString n)
  | none => S "undefined"

/-- Render an optional string the way a template literal renders `undefined`. -/
def renderOptStr : Option Str → Str
  | some s => s
  | none => S "undefined"

/-- The body of the per-item loop of `WeworkBot.execute`: the thrown-error path
is caught and turned into a failure record under `continueOnFail`, a failed
delivery is pushed as-is under `continueOnFail` and thrown otherwise, and the
success path pushes the result with the echoed input. -/
def rowRecord (continueOnFail : Bool) (now : Nat) : RowEval → Except Str ExecRecord
  | .throwBefore message =>
    if continueOnFail then
      .ok ⟨{ success := false, errorCode := some (-1), errorMessage := some message,
             timestamp := now, messageType := S "unknown" }, none⟩
    else .error message
  | .validationFailed errors =>
    let message := S "消息验证失败: " ++ joinSep (S ", ") errors
    if continueOnFail then
      .ok ⟨{ success := false, errorCode := some (-1), errorMessage := some message,
             timestamp := now, messageType := S "unknown" }, none⟩
    else .error message
  | .delivered result input =>
    if !result.success && !continueOnFail then
      .error (S "消息发送失败: " ++ renderOptStr result.errorMessage ++
        S " (错误代码: " ++ renderOptInt result.errorCode ++ S ")")
    else .ok ⟨result, some input⟩

/-- The sequential item loop of `WeworkBot.execute`: each row appends exactly
one record; a thrown error aborts the whole run. -/
def executeLoop (continueOnFail : Bool) (now : Nat) :
    List RowEval → Except Str (List ExecRecord)
  | [] => .ok []
  | r :: rest =>
    match rowRecord continueOnFail now r with
    | .error message => .error message
    | .ok rec =>
      match executeLoop continueOnFail now rest with
      | .error message => .error message
      | .ok recs => .ok (rec :: recs)

/-! ## Sanitizer stage lemmas -/

theorem ciChar_eq_of_not_lower {p : Char} (hp : p.isLower = false) (c : Char) :
    ciChar p c = decide (c = p) := by
  simp [ciChar, hp]

theorem matchScriptAt_none {c : Char} (hc : c ≠ '<') (rest : Str) :
    matchScriptAt (c :: rest) = none := by
  have hS : S "<script" = '<' :: S "script" := rfl
  have hp : startsWithCI (S "<script") (c :: rest) = false := by
    rw [hS]
    simp only [startsWithCI]
    rw [ciChar_eq_of_not_lower (by decide) c]
    simp [hc]
  simp [matchScriptAt, hp]

theorem stripScriptTags_id {s : Str} (h : '<' ∉ s) : stripScriptTags s = s := by
  induction s with
  | nil => simp [stripScriptTags]
  | cons c rest ih =>
    have hc : c ≠ '<' := fun hx => h (hx ▸ List.mem_cons_self c rest)
    have hrest : '<' ∉ rest := fun hx => h (List.mem_cons_of_mem c hx)
    rw [stripScriptTags, matchScriptAt_none hc, ih hrest]

theorem stripHtmlTags_id {s : Str} (h : '<' ∉ s) : stripHtmlTags s = s := by
  induction s with
  | nil => simp [stripHtmlTags]
  | cons c rest ih =>
    have hc : c ≠ '<' := fun hx => h (hx ▸ List.mem_cons_self c rest)
    have hrest : '<' ∉ rest := fun hx => h (List.mem_cons_of_mem c hx)
    rw [stripHtmlTags, if_neg hc, ih hrest]

theorem filterLinks_id {s : Str} (h : '[' ∉ s) : filterLinks s = s := by
  induction s with
  | nil => simp [filterLinks]
  | cons c rest ih =>
    have hc : c ≠ '[' := fun hx => h (hx ▸ List.mem_cons_self c rest)
    have hrest : '[' ∉ rest := fun hx => h (List.mem_cons_of_mem c hx)
    rw [filterLinks, if_neg hc, ih hrest]

theorem countTriple_zero {s : Str} (h : backtick ∉ s) : countTriple s = 0 := by
  induction s using countTriple.induct with
  | case1 c1 c2 c3 rest hb =>
    exact absurd (hb.1 ▸ List.mem_cons_self c1 _) h
  | case2 c1 c2 c3 rest hb ih =>
    rw [countTriple, if_neg hb]
    exact ih fun hx => h (List.mem_cons_of_mem c1 hx)
  | case3 t ht =>
    match t, ht with
    | [], _ => rfl
    | [a], _ => rfl
    | [a, b], _ => rfl
    | a :: b :: c :: t3, ht => exact absurd rfl (ht a b c t3)

theorem removeCodeBlocks_id {s : Str} (h : backtick ∉ s) :
    removeCodeBlocks s = s := by
  induction s using removeCodeBlocks.induct with
  | case1 c1 c2 c3 rest hb _ _ _ =>
    exact absurd (hb.1 ▸ List.mem_cons_self c1 _) h
  | case2 c1 c2 c3 rest hb _ _ =>
    exact absurd (hb.1 ▸ List.mem_cons_self c1 _) h
  | case3 c1 c2 c3 rest hb ih =>
    rw [removeCodeBlocks, if_neg hb, ih fun hx => h (List.mem_cons_of_mem c1 hx)]
  | case4 t ht =>
    match t, ht with
    | [], _ => simp [removeCodeBlocks]
    | [a], _ => simp [removeCodeBlocks]
    | [a, b], _ => simp [removeCodeBlocks]
    | a :: b :: c :: t3, ht => exact absurd rfl (ht a b c t3)

theorem countBoldPairs_zero {s : Str} (h : '*' ∉ s) : countBoldPairs s = 0 := by
  induction s using countBoldPairs.induct with
  | case1 c1 c2 rest hb =>
    exact absurd (hb.1 ▸ List.mem_cons_self c1 _) h
  | case2 c1 c2 rest hb ih =>
    rw [countBoldPairs, if_neg hb]
    exact ih fun hx => h (List.mem_cons_of_mem c1 hx)
  | case3 t ht =>
    match t, ht with
    | [], _ => rfl
    | [a], _ => rfl
    | a :: b :: t2, ht => exact absurd rfl (ht a b t2)

theorem removeBoldSpans_id {s : Str} (h : '*' ∉ s) : removeBoldSpans s = s := by
  induction s using removeBoldSpans.induct with
  | case1 c1 c2 rest hb _ _ _ _ _ =>
    exact absurd (hb.1 ▸ List.mem_cons_self c1 _) h
  | case2 c1 c2 rest hb _ _ _ _ _ =>
    exact absurd (hb.1 ▸ List.mem_cons_self c1 _) h
  | case3 c1 c2 rest hb _ _ =>
    exact absurd (hb.1 ▸ List.mem_cons_self c1 _) h
  | case4 c1 c2 rest hb ih =>
    rw [removeBoldSpans, if_neg hb, ih fun hx => h (List.mem_cons_of_mem c1 hx)]
  | case5 t ht =>
    match t, ht with
    | [], _ => simp [removeBoldSpans]
    | [a], _ => simp [removeBoldSpans]
    | a :: b :: t2, ht => exact absurd rfl (ht a b t2)

theorem countIsolatedStars_zero {s : Str} (h : '*' ∉ s) (b : Bool) :
    countIsolatedStars b s = 0 := by
  induction s generalizing b with
  | nil => rfl
  | cons c rest ih =>
    have hc : c ≠ '*' := fun hx => h (hx ▸ List.mem_cons_self c rest)
    rw [countIsolatedStars, if_neg hc]
    exact ih (fun hx => h (List.mem_cons_of_mem c hx)) false

theorem fixCodeBlocks_id {s : Str} (h : backtick ∉ s) : fixCodeBlocks s = s := by
  unfold fixCodeBlocks
  rw [countTriple_zero h]
  simp only [Nat.zero_mod, if_neg (by omega : ¬ (0 : Nat) = 1)]
  rw [removeCodeBlocks_id h, List.count_eq_zero.mpr h]
  simp

theorem fixBold_id {s : Str} (h : '*' ∉ s) : fixBold s = s := by
  unfold fixBold
  rw [countBoldPairs_zero h]
  simp

theorem fixItalic_id {s : Str} (h : '*' ∉ s) : fixItalic s = s := by
  unfold fixItalic
  rw [removeBoldSpans_id h, countIsolatedStars_zero h]
  simp

theorem sanitizeMarkdown_id {s : Str} (h1 : '<' ∉ s) (h2 : '[' ∉ s)
    (h3 : backtick ∉ s) (h4 : '*' ∉ s) : sanitizeMarkdown s = s := by
  unfold sanitizeMarkdown
  rw [stripScriptTags_id h1, stripHtmlTags_id h1, filterLinks_id h2,
    fixCodeBlocks_id h3, fixBold_id h4, fixItalic_id h4]


/-! ## Claim C1 -/

theorem removeBoldSpans_single_star : removeBoldSpans ['*'] = ['*'] := by
  rw [removeBoldSpans.eq_def]

theorem removeBoldSpans_four_stars : removeBoldSpans (S "****") = [] := by
  conv_lhs => rw [removeBoldSpans.eq_def]
  show removeBoldSpans [] = []
  conv_lhs => rw [removeBoldSpans.eq_def]

theorem sanitizeMarkdown_single_star : sanitizeMarkdown ['*'] = S "**" := by
  unfold sanitizeMarkdown
  rw [stripScriptTags_id (by decide), stripHtmlTags_id (by decide),
    filterLinks_id (by decide), fixCodeBlocks_id (by decide),
    show fixBold ['*'] = ['*'] from by decide]
  unfold fixItalic
  rw [removeBoldSpans_single_star]
  decide

theorem sanitizeMarkdown_double_star : sanitizeMarkdown (S "**") = S "****" := by
  unfold sanitizeMarkdown
  rw [stripScriptTags_id (by decide), stripHtmlTags_id (by decide),
    filterLinks_id (by decide), fixCodeBlocks_id (by decide),
    show fixBold (S "**") = S "****" from by decide]
  unfold fixItalic
  rw [removeBoldSpans_four_stars]
  decide

/-- C1 counterexample: the sanitization pipeline is not idempotent.  On the
one-character input `*` the italic repair appends a `*`, producing `**`; a
second application sees an odd count of bold markers and produces `****`. -/
theorem C1_counterexample :
    sanitizeMarkdown (sanitizeMarkdown ['*']) ≠ sanitizeMarkdown ['*'] := by
  rw [sanitizeMarkdown_single_star, sanitizeMarkdown_double_star]
  decide

/-- C1 (amended): the sanitizer applied twice agrees with the sanitizer applied
once on every input containing none of the markup trigger characters
(angle bracket, opening square bracket, backtick, asterisk); on such inputs
every pipeline stage is the identity.  (As stated for all strings the claim is
false: the balance repairs can re-unbalance the output, see the
counterexample.) -/
theorem C1_sanitizeMarkdown_idempotent_triggerFree (s : Str)
    (h1 : '<' ∉ s) (h2 : '[' ∉ s) (h3 : backtick ∉ s) (h4 : '*' ∉ s) :
    sanitizeMarkdown (sanitizeMarkdown s) = sanitizeMarkdown s := by
  rw [sanitizeMarkdown_id h1 h2 h3 h4, sanitizeMarkdown_id h1 h2 h3 h4]

/-- C1 witness: the amended idempotence theorem applied at a concrete input. -/
theorem C1_witness :
    sanitizeMarkdown (sanitizeMarkdown (S "hello world")) =
      sanitizeMarkdown (S "hello world") :=
  C1_sanitizeMarkdown_idempotent_triggerFree (S "hello world")
    (by decide) (by decide) (by decide) (by decide)

/-! ## Claim C5 -/

/-- C5: the retryability verdict of the classifier holds for exactly the codes
−1, −2, −3, 42001, 42002 and 45009; every other code (including 93000, 40001
and 44001–44004) is terminal. -/
theorem C5_isRetryable_iff (code : Int) :
    isRetryableError code = true ↔
      code = -1 ∨ code = -2 ∨ code = -3 ∨ code = 42001 ∨ code = 42002 ∨
        code = 45009 := by
  simp only [isRetryableError, List.contains_iff_exists_mem_beq, beq_iff_eq,
    List.mem_cons, List.not_mem_nil, or_false]
  constructor
  · rintro ⟨a, ha, hb⟩
    subst hb
    exact ha
  · intro h
    exact ⟨code, h, rfl⟩

/-! ## Claims C6 and C7 (text formatter) -/

theorem jsSetDedupAux_sublist (l : List Str) :
    ∀ seen, (jsSetDedupAux seen l).Sublist l := by
  induction l with
  | nil => intro seen; simp [jsSetDedupAux]
  | cons a rest ih =>
    intro seen
    rw [jsSetDedupAux]
    split
    · exact (ih seen).trans (List.sublist_cons_self a rest)
    · exact List.Sublist.cons₂ a (ih (a :: seen))

theorem jsSetDedup_sublist (l : List Str) : (jsSetDedup l).Sublist l :=
  jsSetDedupAux_sublist l []

theorem mem_jsSetDedupAux {l : List Str} :
    ∀ {seen x}, x ∈ jsSetDedupAux seen l ↔ x ∈ l ∧ x ∉ seen := by
  induction l with
  | nil => intro seen x; simp [jsSetDedupAux]
  | cons a rest ih =>
    intro seen x
    rw [jsSetDedupAux]
    split
    · rename_i ha
      rw [ih]
      constructor
      · rintro ⟨h1, h2⟩
        exact ⟨List.mem_cons_of_mem a h1, h2⟩
      · rintro ⟨h1, h2⟩
        rcases List.mem_cons.mp h1 with rfl | h1
        · exact absurd ha h2
        · exact ⟨h1, h2⟩
    · rename_i ha
      simp only [List.mem_cons, ih]
      constructor
      · rintro (rfl | ⟨h1, h2⟩)
        · exact ⟨Or.inl rfl, ha⟩
        · exact ⟨Or.inr h1, fun hc => h2 (Or.inr hc)⟩
      · rintro ⟨rfl | h1, h2⟩
        · exact Or.inl rfl
        · by_cases hxa : x = a
          · exact Or.inl hxa
          · exact Or.inr ⟨h1, not_or.mpr ⟨hxa, h2⟩⟩

theorem mem_jsSetDedup {l : List Str} {x : Str} : x ∈ jsSetDedup l ↔ x ∈ l := by
  unfold jsSetDedup
  rw [mem_jsSetDedupAux]
  simp

theorem jsSetDedupAux_nodup (l : List Str) :
    ∀ seen, (jsSetDedupAux seen l).Nodup := by
  induction l with
  | nil => intro seen; simp [jsSetDedupAux]
  | cons a rest ih =>
    intro seen
    rw [jsSetDedupAux]
    split
    · exact ih seen
    · refine List.nodup_cons.mpr ⟨fun hmem => ?_, ih (a :: seen)⟩
      have := (mem_jsSetDedupAux.mp hmem).2
      simp at this

theorem jsSetDedup_nodup (l : List Str) : (jsSetDedup l).Nodup :=
  jsSetDedupAux_nodup l []

/-- The truncation suffix of the text formatter has 8 code units. -/
theorem textSuffix_length : (S "...(已截断)").length = 8 := by decide

/-- C6: whenever the text formatter succeeds on content longer than 4096 code
units (under the default configuration), the output content is the first
`(4096−10) − 8` characters of the input followed by the truncation suffix, so
it is at most 4096 long and ends with the marker. -/
theorem C6_text_truncation (c : Str) (us ms : Option (List Str))
    (hlen : 4096 < c.length) (hne : isEmptyOrWhitespace c = false) :
    ∃ m, formatTextMessage defaultHandlerConfig ⟨some c, us, ms⟩ = .ok m ∧
      m.text.content = c.take (4096 - 10 - 8) ++ S "...(已截断)" ∧
      m.text.content.length ≤ 4096 ∧
      S "...(已截断)" <:+ m.text.content := by
  unfold formatTextMessage
  simp only [Option.getD_some, hne, Bool.false_eq_true, if_false]
  have hmax : defaultHandlerConfig.maxContentLength = 4096 := rfl
  rw [hmax]
  rw [if_pos (by omega : c.length > 4096)]
  have htr : truncateString c (4096 - 10) (S "...(已截断)") =
      c.take (4096 - 10 - 8) ++ S "...(已截断)" := by
    unfold truncateString
    rw [if_neg (by omega), textSuffix_length]
  refine ⟨_, rfl, htr, ?_, ?_⟩
  · rw [htr]
    have h1 : (c.take (4096 - 10 - 8)).length ≤ 4096 - 10 - 8 :=
      List.length_take_le _ c
    simp only [List.length_append, textSuffix_length]
    omega
  · rw [htr]
    exact ⟨_, rfl⟩

/-- C6 witness: the truncation theorem at a 4097-character input. -/
theorem C6_witness :
    (formatTextMessage defaultHandlerConfig
        ⟨some (List.replicate 4097 'a'), none, none⟩).map (fun m => m.text.content) =
      .ok ((List.replicate 4097 'a').take (4096 - 10 - 8) ++ S "...(已截断)") ∧
    ((List.replicate 4097 'a').take (4096 - 10 - 8) ++ S "...(已截断)").length ≤ 4096 ∧
    S "...(已截断)" <:+
      (List.replicate 4097 'a').take (4096 - 10 - 8) ++ S "...(已截断)" := by
  obtain ⟨m, h1, h2, h3, h4⟩ := C6_text_truncation (List.replicate 4097 'a') none none
    (by rw [List.length_replicate]; omega) (by decide)
  refine ⟨?_, ?_, ?_⟩
  · rw [h1]
    show Except.ok m.text.content = _
    rw [h2]
  · rw [h2] at h3
    exact h3
  · rw [h2] at h4
    exact h4

/-- C7: for a text input with both mention lists, every emitted user list is
the order-preserving first-occurrence de-duplication of the blank-filtered
input (no blanks, no duplicates, a sublist of the input covering every
non-blank entry), the emitted phone list additionally contains only values
matching `^1[3-9]\d{9}$`, and a list that filters to empty is omitted from the
message rather than emitted as `[]`. -/
theorem C7_mention_filtering (c : Str) (us ms : List Str) (m : TextMessage)
    (h : formatTextMessage defaultHandlerConfig ⟨some c, some us, some ms⟩ = .ok m) :
    (∀ l, m.text.mentioned_list = some l →
      l = jsSetDedup (us.filter (fun u => !isEmptyOrWhitespace u)) ∧
      l.Nodup ∧ l.Sublist us ∧
      (∀ x ∈ l, isEmptyOrWhitespace x = false) ∧
      (∀ x ∈ us, isEmptyOrWhitespace x = false → x ∈ l)) ∧
    (us.filter (fun u => !isEmptyOrWhitespace u) = [] →
      m.text.mentioned_list = none) ∧
    (∀ l, m.text.mentioned_mobile_list = some l →
      l = jsSetDedup ((ms.filter (fun x => !isEmptyOrWhitespace x)).filter matchesPhone) ∧
      l.Nodup ∧ l.Sublist ms ∧
      (∀ x ∈ l, isEmptyOrWhitespace x = false ∧ matchesPhone x = true) ∧
      (∀ x ∈ ms, isEmptyOrWhitespace x = false → matchesPhone x = true → x ∈ l)) ∧
    ((ms.filter (fun x => !isEmptyOrWhitespace x)).filter matchesPhone = [] →
      m.text.mentioned_mobile_list = none) := by
  unfold formatTextMessage at h
  by_cases hne : isEmptyOrWhitespace c = true
  · simp [hne] at h
  · rw [Bool.not_eq_true] at hne
    simp only [Option.getD_some, hne, Bool.false_eq_true, if_false, Except.ok.injEq] at h
    subst h
    refine ⟨?_, ?_, ?_, ?_⟩
    · intro l hl
      simp only at hl
      set fl := us.filter (fun u => !isEmptyOrWhitespace u) with hfl
      by_cases hzero : us.length > 0
      · simp only [if_pos hzero] at hl
        by_cases hulen : (jsSetDedup fl).length > 0
        · rw [if_pos hulen] at hl
          cases hl
          refine ⟨rfl, jsSetDedup_nodup fl,
            ((jsSetDedup_sublist fl).trans (List.filter_sublist us)), ?_, ?_⟩
          · intro x hx
            have := mem_jsSetDedup.mp hx
            rw [hfl, List.mem_filter] at this
            simpa using this.2
          · intro x hx hblank
            refine mem_jsSetDedup.mpr ?_
            rw [hfl, List.mem_filter]
            exact ⟨hx, by simp [hblank]⟩
        · rw [if_neg hulen] at hl
          cases hl
      · simp only [if_neg hzero] at hl
        cases hl
    · intro hempty
      simp only
      by_cases hzero : us.length > 0
      · rw [if_pos hzero, hempty]
        simp [jsSetDedup, jsSetDedupAux]
      · rw [if_neg hzero]
    · intro l hl
      simp only at hl
      set fl := (ms.filter (fun x => !isEmptyOrWhitespace x)).filter matchesPhone with hfl
      by_cases hzero : ms.length > 0
      · simp only [if_pos hzero] at hl
        by_cases hulen : (jsSetDedup fl).length > 0
        · rw [if_pos hulen] at hl
          cases hl
          refine ⟨rfl, jsSetDedup_nodup fl,
            (jsSetDedup_sublist fl).trans
              ((List.filter_sublist _).trans (List.filter_sublist ms)), ?_, ?_⟩
          · intro x hx
            have := mem_jsSetDedup.mp hx
            rw [hfl, List.mem_filter] at this
            have h2 := this.1
            rw [List.mem_filter] at h2
            exact ⟨by simpa using h2.2, this.2⟩
          · intro x hx hblank hphone
            refine mem_jsSetDedup.mpr ?_
            rw [hfl, List.mem_filter]
            exact ⟨List.mem_filter.mpr ⟨hx, by simp [hblank]⟩, hphone⟩
        · rw [if_neg hulen] at hl
          cases hl
      · simp only [if_neg hzero] at hl
        cases hl
    · intro hempty
      simp only
      by_cases hzero : ms.length > 0
      · rw [if_pos hzero, hempty]
        simp [jsSetDedup, jsSetDedupAux]
      · rw [if_neg hzero]

/-- C7 witness: the mention-filtering theorem applied at a concrete input with
duplicates, a blank entry, and a malformed phone number. -/
theorem C7_witness :
    [S "a", S "b"] = jsSetDedup ([S "a", S "a", S " ", S "b"].filter
        (fun u => !isEmptyOrWhitespace u)) ∧
    ([S "a", S "b"] : List Str).Nodup ∧
    ([S "a", S "b"] : List Str).Sublist [S "a", S "a", S " ", S "b"] := by
  have hfmt : formatTextMessage defaultHandlerConfig
      ⟨some (S "hi"), some [S "a", S "a", S " ", S "b"],
        some [S "13812345678", S "12345", S "13812345678"]⟩ = .ok
      { text := { content := S "hi",
                  mentioned_list := some [S "a", S "b"],
                  mentioned_mobile_list := some [S "13812345678"] } } := by rfl
  have h := (C7_mention_filtering _ _ _ _ hfmt).1 [S "a", S "b"] rfl
  exact ⟨h.1, h.2.1, h.2.2.1⟩

/-! ## Claim C8 (image formatter) -/

/-- C8: under the default configuration, any non-blank payload whose cleaned
base64 passes validation, fits the size limit, and decodes to bytes starting
with the GIF magic `47 49 46 38` is sniffed as `gif`, and the formatter then
raises the unsupported-format error naming `gif` (the default allow-list is
jpg/jpeg/png). -/
theorem C8_gif_rejected (s : Str) (rest : List Nat) (md5fn : List Nat → Str)
    (hne : isEmptyOrWhitespace s = false)
    (hvalid : isValidBase64 (cleanBase64String s) = true)
    (hsize : calculateBase64SizeQuarters (cleanBase64String s) ≤ 4 * (2 * 1024 * 1024))
    (hmagic : b64Decode (cleanBase64String s) = 0x47 :: 0x49 :: 0x46 :: 0x38 :: rest) :
    detectImageType (cleanBase64String s) = S "gif" ∧
    formatImageMessage defaultHandlerConfig md5fn ⟨some s, none⟩ =
      .error (.unsupportedFormat (S "gif") [S "jpg", S "jpeg", S "png"]) := by
  have hdet : detectImageType (cleanBase64String s) = S "gif" := by
    unfold detectImageType
    rw [hmagic]
    norm_num
  refine ⟨hdet, ?_⟩
  unfold formatImageMessage
  simp only [Option.getD_some]
  simp only [Bool.false_and, Bool.false_eq_true, if_false, hne, hvalid,
    Bool.not_true, hdet]
  rw [if_neg (by
    have : defaultHandlerConfig.maxImageSize = 2 * 1024 * 1024 := rfl
    rw [this]
    omega)]
  rw [if_pos (by decide :
    (!defaultHandlerConfig.supportedImageTypes.contains (S "gif")) = true)]
  rfl

/-- C8 witness: the GIF-rejection theorem at the concrete payload
`R0lGOA==`, which decodes to exactly the four magic bytes. -/
theorem C8_witness :
    detectImageType (cleanBase64String (S "R0lGOA==")) = S "gif" ∧
    formatImageMessage defaultHandlerConfig (fun _ => S "d41d8cd98f00b204e9800998ecf8427e")
        ⟨some (S "R0lGOA=="), none⟩ =
      .error (.unsupportedFormat (S "gif") [S "jpg", S "jpeg", S "png"]) :=
  C8_gif_rejected (S "R0lGOA==") [] (fun _ => S "d41d8cd98f00b204e9800998ecf8427e")
    (by decide) (by decide) (by decide) (by decide)

/-! ## Claims C3 and C4 (delivery client) -/

/-- Reaching lemma for the retry loop: when the first `n` attempts fail with
retryable errors and attempt `n` succeeds, the loop started at attempt `j ≤ n`
returns the success response having made exactly `n + 1` physical calls. -/
theorem sendLoop_reaches (cfg : ApiClientConfig) (url : Str)
    (transport : Nat → TransportOutcome) (n : Nat) (resp : ApiResponse)
    (hn : n ≤ cfg.maxRetries)
    (hfail : ∀ i, i < n → ∃ e, makeHttpRequest cfg true url transport i =
      (.error e, true) ∧ shouldRetryClient e = true)
    (hok : makeHttpRequest cfg true url transport n = (.ok resp, true)) :
    ∀ j sleeps, j ≤ n →
      ∃ sl, sendLoop cfg true url transport (cfg.maxRetries + 1 - j) j j sleeps =
        ⟨.ok resp, n + 1, sl⟩ := by
  suffices H : ∀ d j sleeps, j ≤ n → n - j = d →
      ∃ sl, sendLoop cfg true url transport (cfg.maxRetries + 1 - j) j j sleeps =
        ⟨.ok resp, n + 1, sl⟩ by
    intro j sleeps hj
    exact H (n - j) j sleeps hj rfl
  intro d
  induction d with
  | zero =>
    intro j sleeps hj hd
    have hjn : j = n := by omega
    subst hjn
    have hfuel : cfg.maxRetries + 1 - j = (cfg.maxRetries - j) + 1 := by omega
    rw [hfuel]
    refine ⟨sleeps, ?_⟩
    rw [sendLoop, hok]
    rfl
  | succ d ih =>
    intro j sleeps hj hd
    have hjn : j < n := by omega
    obtain ⟨e, he, hr⟩ := hfail j hjn
    have hfuel : cfg.maxRetries + 1 - j = (cfg.maxRetries - j) + 1 := by omega
    rw [hfuel]
    rw [sendLoop, he]
    simp only [hr, Bool.not_true, Bool.false_eq_true, if_false]
    rw [if_neg (by omega : ¬ j + 1 > cfg.maxRetries)]
    have hfuel2 : cfg.maxRetries - j = cfg.maxRetries + 1 - (j + 1) := by omega
    rw [hfuel2]
    exact ih (j + 1) _ (by omega) (by omega)

/-- C3: with `maxRetries = 3` (the default configuration) and a transport that
throws a retryable transport error on the first two calls and returns an
`errcode 0` envelope on the third, `sendMessage` makes exactly 3 physical HTTP
calls and returns the parsed success response of the third call; the call count
also shows that the success returns immediately, with no fourth attempt. -/
theorem C3_two_failures_then_success (url : Str)
    (transport : Nat → TransportOutcome)
    (n0 m0 : Str) (b0 : Option Json) (n1 m1 : Str) (b1 : Option Json)
    (body2 : Json) (resp : ApiResponse)
    (hurl : isValidWebhookUrl url = true)
    (ht0 : transport 0 = .err n0 m0 b0)
    (hr0 : shouldRetryClient (processHttpCatch defaultClientConfig n0 m0 b0) = true)
    (ht1 : transport 1 = .err n1 m1 b1)
    (hr1 : shouldRetryClient (processHttpCatch defaultClientConfig n1 m1 b1) = true)
    (ht2 : transport 2 = .ok body2)
    (hp2 : parseApiResponse body2 = .ok resp)
    (hz : resp.errcode = 0) :
    (clientSendMessage defaultClientConfig true url transport).result = .ok resp ∧
    (clientSendMessage defaultClientConfig true url transport).calls = 3 := by
  have hmk : ∀ i, i < 2 → ∃ e, makeHttpRequest defaultClientConfig true url transport i =
      (.error e, true) ∧ shouldRetryClient e = true := by
    intro i hi
    interval_cases i
    · refine ⟨processHttpCatch defaultClientConfig n0 m0 b0, ?_, hr0⟩
      unfold makeHttpRequest
      rw [hurl]
      simp only [Bool.not_true, Bool.false_eq_true, if_false, ht0]
    · refine ⟨processHttpCatch defaultClientConfig n1 m1 b1, ?_, hr1⟩
      unfold makeHttpRequest
      rw [hurl]
      simp only [Bool.not_true, Bool.false_eq_true, if_false, ht1]
  have hok : makeHttpRequest defaultClientConfig true url transport 2 = (.ok resp, true) := by
    unfold makeHttpRequest
    rw [hurl]
    simp only [Bool.not_true, Bool.false_eq_true, if_false, ht2, hp2, hz]
    simp
  obtain ⟨sl, hrun⟩ := sendLoop_reaches defaultClientConfig url transport 2 resp
    (by decide) hmk hok 0 [] (by omega)
  unfold clientSendMessage
  have : defaultClientConfig.maxRetries + 1 = defaultClientConfig.maxRetries + 1 - 0 := rfl
  rw [this, hrun]
  exact ⟨rfl, rfl⟩

/-- C3 witness: a concrete transport that times out twice and then returns
`errcode 0`. -/
theorem C3_witness :
    (clientSendMessage defaultClientConfig true
        (S "https://qyapi.weixin.qq.com/cgi-bin/webhook/send?key=abc")
        (fun i => if i < 2 then .err (S "RequestError") (S "connect timeout") none
          else .ok (.obj [(S "errcode", .num 0), (S "errmsg", .str (S "ok"))]))).result =
      .ok ⟨0, S "ok"⟩ ∧
    (clientSendMessage defaultClientConfig true
        (S "https://qyapi.weixin.qq.com/cgi-bin/webhook/send?key=abc")
        (fun i => if i < 2 then .err (S "RequestError") (S "connect timeout") none
          else .ok (.obj [(S "errcode", .num 0), (S "errmsg", .str (S "ok"))]))).calls = 3 :=
  C3_two_failures_then_success _ _ (S "RequestError") (S "connect timeout") none
    (S "RequestError") (S "connect timeout") none
    (.obj [(S "errcode", .num 0), (S "errmsg", .str (S "ok"))]) ⟨0, S "ok"⟩
    (by decide) (by rfl) (by decide) (by rfl) (by decide) (by rfl)
    (by rfl) (by decide)

/-- C4: for every webhook URL rejected by the validator — it does not parse,
its protocol is not `https:`, its hostname does not contain the API host, or
its path mentions neither `webhook` nor `send` — a send makes zero physical
HTTP calls, performs zero backoff sleeps, and immediately raises the
invalid-URL error (classified to the synthetic code −4). -/
theorem C4_invalid_url_fast_fail (url : Str) (transport : Nat → TransportOutcome)
    (hbad : parseJsUrl url = none ∨
      ∃ u, parseJsUrl url = some u ∧
        (u.protocol ≠ S "https:" ∨
         containsSub (S "qyapi.weixin.qq.com") u.hostname = false ∨
         (containsSub (S "webhook") u.pathname = false ∧
          containsSub (S "send") u.pathname = false))) :
    (clientSendMessage defaultClientConfig true url transport).calls = 0 ∧
    (clientSendMessage defaultClientConfig true url transport).sleeps = [] ∧
    (clientSendMessage defaultClientConfig true url transport).result =
      .error (.wework (-4) (S "无效的webhook URL格式")) := by
  have hv : isValidWebhookUrl url = false := by
    unfold isValidWebhookUrl
    rcases hbad with h | ⟨u, hu, hcase⟩
    · rw [h]
    · simp only [hu]
      rcases hcase with h1 | h1 | ⟨h1, h2⟩
      · simp [h1]
      · simp [h1]
      · simp [h1, h2]
  have hmk : makeHttpRequest defaultClientConfig true url transport 0 =
      (.error (.plain (S "Error") (S "无效的webhook URL格式")), false) := by
    unfold makeHttpRequest
    rw [hv]
    rfl
  have hsr : shouldRetryClient (.plain (S "Error") (S "无效的webhook URL格式")) = false := by
    decide
  have hcg : createGenericError (.plain (S "Error") (S "无效的webhook URL格式")) =
      .wework (-4) (S "无效的webhook URL格式") := by
    decide
  unfold clientSendMessage
  have h4 : defaultClientConfig.maxRetries + 1 = 3 + 1 := rfl
  rw [h4, sendLoop, hmk]
  simp only [hsr, Bool.not_false, if_true]
  rw [if_neg (by decide : ¬ 0 + 1 > defaultClientConfig.maxRetries), hcg]
  exact ⟨rfl, rfl, rfl⟩

/-- C4 witness: the fast-fail theorem at a non-HTTPS URL. -/
theorem C4_witness :
    (clientSendMessage defaultClientConfig true
        (S "http://qyapi.weixin.qq.com/cgi-bin/webhook/send?key=abc")
        (fun _ => .ok .null)).calls = 0 ∧
    (clientSendMessage defaultClientConfig true
        (S "http://qyapi.weixin.qq.com/cgi-bin/webhook/send?key=abc")
        (fun _ => .ok .null)).sleeps = [] ∧
    (clientSendMessage defaultClientConfig true
        (S "http://qyapi.weixin.qq.com/cgi-bin/webhook/send?key=abc")
        (fun _ => .ok .null)).result =
      .error (.wework (-4) (S "无效的webhook URL格式")) :=
  C4_invalid_url_fast_fail (S "http://qyapi.weixin.qq.com/cgi-bin/webhook/send?key=abc")
    (fun _ => .ok .null)
    (Or.inr ⟨⟨S "http:", S "qyapi.weixin.qq.com", S "/cgi-bin/webhook/send"⟩,
      by rfl, Or.inl (by decide)⟩)

/-! ## Claim C10 (API service) -/

/-- A successful attempt can only return an `errcode 0` response: the client
throws on every non-zero `errcode`. -/
theorem makeHttpRequest_ok {cfg : ApiClientConfig} {hasHelpers : Bool} {url : Str}
    {transport : Nat → TransportOutcome} {i : Nat} {resp : ApiResponse} {b : Bool}
    (h : makeHttpRequest cfg hasHelpers url transport i = (.ok resp, b)) :
    resp.errcode = 0 := by
  unfold makeHttpRequest at h
  split at h
  · simp at h
  · split at h
    · simp at h
    · split at h
      · rename_i body hbody
        split at h
        · simp at h
        · rename_i resp' hresp'
          split at h
          · simp at h
          · rename_i hz
            simp only [Prod.mk.injEq, Except.ok.injEq] at h
            rw [← h.1]
            omega
      · simp at h

/-- The retry loop only returns `.ok` with an `errcode 0` response. -/
theorem sendLoop_ok_errcode (cfg : ApiClientConfig) (hasHelpers : Bool) (url : Str)
    (transport : Nat → TransportOutcome) :
    ∀ fuel attempt calls sleeps resp,
      (sendLoop cfg hasHelpers url transport fuel attempt calls sleeps).result =
        .ok resp → resp.errcode = 0 := by
  intro fuel
  induction fuel with
  | zero =>
    intro attempt calls sleeps resp h
    simp [sendLoop] at h
  | succ fuel ih =>
    intro attempt calls sleeps resp h
    rw [sendLoop] at h
    split at h
    · rename_i resp' called hm
      simp only at h
      cases h
      exact makeHttpRequest_ok hm
    · rename_i e called hm
      simp only at h
      split at h
      · simp at h
      · split at h
        · simp at h
        · exact ih _ _ _ _ h

/-- `WeworkApiClient.sendMessage` only returns responses with `errcode 0`. -/
theorem clientSendMessage_ok_errcode {cfg : ApiClientConfig} {hasHelpers : Bool}
    {url : Str} {transport : Nat → TransportOutcome} {resp : ApiResponse}
    (h : (clientSendMessage cfg hasHelpers url transport).result = .ok resp) :
    resp.errcode = 0 :=
  sendLoop_ok_errcode cfg hasHelpers url transport _ _ _ _ resp h

/-- C10: the service-level send is total — it returns a delivery-outcome
record for every input (the embedding returns `NodeOutputData`, never an
exception, because every raised error is caught by `createErrorResult`).  When
the record reports success the underlying client returned an `errcode 0`
response, the record carries `errorCode = 0`, a message id, and no error
message; when it reports failure it always carries a numeric error code and an
error message; the timestamp and message type are always present. -/
theorem C10_service_sendMessage_total (cfg : ApiClientConfig) (hasHelpers : Bool)
    (url : Str) (message : WeworkMessageM) (transport : Nat → TransportOutcome)
    (now : Nat) (msgId : Str) :
    ((serviceSendMessage cfg hasHelpers url message transport now msgId).success = true →
      ∃ resp, (clientSendMessage cfg hasHelpers url transport).result = .ok resp ∧
        resp.errcode = 0 ∧
        (serviceSendMessage cfg hasHelpers url message transport now msgId).errorCode =
          some 0 ∧
        (serviceSendMessage cfg hasHelpers url message transport now msgId).errorMessage =
          none ∧
        (serviceSendMessage cfg hasHelpers url message transport now msgId).messageId =
          some msgId) ∧
    ((serviceSendMessage cfg hasHelpers url message transport now msgId).success = false →
      (serviceSendMessage cfg hasHelpers url message transport now msgId).errorCode.isSome =
        true ∧
      (serviceSendMessage cfg hasHelpers url message transport now msgId).errorMessage.isSome =
        true) ∧
    (serviceSendMessage cfg hasHelpers url message transport now msgId).timestamp = now ∧
    (serviceSendMessage cfg hasHelpers url message transport now msgId).messageType =
      message.msgtype := by
  unfold serviceSendMessage
  cases hval : serviceValidateMessage message with
  | error e => simp [createErrorResult]
  | ok u =>
    cases hurl : serviceValidateWebhookUrl url with
    | error e => simp [createErrorResult]
    | ok v =>
      cases hclient : (clientSendMessage cfg hasHelpers url transport).result with
      | error e => simp [createErrorResult]
      | ok resp =>
        have h0 : resp.errcode = 0 := clientSendMessage_ok_errcode hclient
        simp [createSuccessResult, h0]

/-- C10 witness: the totality theorem at a concrete failing input (blank text
content), extracting the failure-record obligations. -/
theorem C10_witness :
    (serviceSendMessage defaultClientConfig true
        (S "https://qyapi.weixin.qq.com/cgi-bin/webhook/send?key=abc")
        (.text [] none none) (fun _ => .ok .null) 1234 (S "msg_1")).success = false ∧
    (serviceSendMessage defaultClientConfig true
        (S "https://qyapi.weixin.qq.com/cgi-bin/webhook/send?key=abc")
        (.text [] none none) (fun _ => .ok .null) 1234 (S "msg_1")).errorCode.isSome =
      true ∧
    (serviceSendMessage defaultClientConfig true
        (S "https://qyapi.weixin.qq.com/cgi-bin/webhook/send?key=abc")
        (.text [] none none) (fun _ => .ok .null) 1234 (S "msg_1")).errorMessage.isSome =
      true ∧
    (serviceSendMessage defaultClientConfig true
        (S "https://qyapi.weixin.qq.com/cgi-bin/webhook/send?key=abc")
        (.text [] none none) (fun _ => .ok .null) 1234 (S "msg_1")).timestamp = 1234 := by
  have h := C10_service_sendMessage_total defaultClientConfig true
    (S "https://qyapi.weixin.qq.com/cgi-bin/webhook/send?key=abc")
    (.text [] none none) (fun _ => .ok .null) 1234 (S "msg_1")
  have hsucc : (serviceSendMessage defaultClientConfig true
      (S "https://qyapi.weixin.qq.com/cgi-bin/webhook/send?key=abc")
      (.text [] none none) (fun _ => .ok .null) 1234 (S "msg_1")).success = false := by
    rfl
  exact ⟨hsucc, (h.2.1 hsucc).1, (h.2.1 hsucc).2, h.2.2.1⟩

/-! ## Claim C2 (orchestration) -/

/-- Under the continue-past-failures flag the loop body never throws: every
row yields exactly one record. -/
theorem rowRecord_continue_ok (now : Nat) (r : RowEval) :
    ∃ rec, rowRecord true now r = .ok rec := by
  cases r with
  | throwBefore message => exact ⟨_, rfl⟩
  | validationFailed errors => exact ⟨_, rfl⟩
  | delivered result input =>
    refine ⟨⟨result, some input⟩, ?_⟩
    simp [rowRecord]

/-- C2: whenever the orchestration loop returns an output list — in particular
always, under the continue-past-failures flag, regardless of which rows fail —
that list has exactly one record per input row, in input order: its length
equals the number of rows and its `i`-th record is the record produced by the
`i`-th row. -/
theorem C2_one_record_per_row (continueOnFail : Bool) (now : Nat)
    (rows : List RowEval) :
    (∀ out, executeLoop continueOnFail now rows = .ok out →
      out.length = rows.length ∧
      ∀ i (h1 : i < rows.length) (h2 : i < out.length),
        rowRecord continueOnFail now (rows.get ⟨i, h1⟩) = .ok (out.get ⟨i, h2⟩)) ∧
    (continueOnFail = true → ∃ out, executeLoop true now rows = .ok out) := by
  constructor
  · induction rows with
    | nil =>
      intro out h
      simp only [executeLoop, Except.ok.injEq] at h
      subst h
      exact ⟨rfl, fun i h1 h2 => absurd h1 (by simp)⟩
    | cons r rest ih =>
      intro out h
      rw [executeLoop] at h
      cases hrec : rowRecord continueOnFail now r with
      | error m => rw [hrec] at h; cases h
      | ok rec =>
        rw [hrec] at h
        cases hrest : executeLoop continueOnFail now rest with
        | error m => rw [hrest] at h; cases h
        | ok recs =>
          rw [hrest] at h
          simp only [Except.ok.injEq] at h
          subst h
          obtain ⟨hlen, hidx⟩ := ih recs hrest
          refine ⟨by simpa using hlen, ?_⟩
          intro i h1 h2
          cases i with
          | zero => simpa using hrec
          | succ j =>
            simp only [List.get_cons_succ]
            exact hidx j (by simpa using h1) (by simpa using h2)
  · intro hflag
    subst hflag
    induction rows with
    | nil => exact ⟨[], rfl⟩
    | cons r rest ih =>
      obtain ⟨rec, hrec⟩ := rowRecord_continue_ok now r
      obtain ⟨recs, hrecs⟩ := ih
      exact ⟨rec :: recs, by rw [executeLoop, hrec, hrecs]⟩

/-- C2 witness: the cardinality theorem at a concrete three-row run (one
success, one delivery failure, one thrown error) under the continue flag. -/
theorem C2_witness :
    executeLoop true 99
        [.delivered { success := true, timestamp := 99, messageType := S "text" } (S "row0"),
         .delivered { success := false, errorCode := some 93000,
                      errorMessage := some (S "bad"), timestamp := 99,
                      messageType := S "text" } (S "row1"),
         .throwBefore (S "boom")] =
      .ok [⟨{ success := true, timestamp := 99, messageType := S "text" }, some (S "row0")⟩,
           ⟨{ success := false, errorCode := some 93000, errorMessage := some (S "bad"),
              timestamp := 99, messageType := S "text" }, some (S "row1")⟩,
           ⟨{ success := false, errorCode := some (-1), errorMessage := some (S "boom"),
              timestamp := 99, messageType := S "unknown" }, none⟩] ∧
    ([⟨{ success := true, timestamp := 99, messageType := S "text" }, some (S "row0")⟩,
      ⟨{ success := false, errorCode := some 93000, errorMessage := some (S "bad"),
         timestamp := 99, messageType := S "text" }, some (S "row1")⟩,
      ⟨{ success := false, errorCode := some (-1), errorMessage := some (S "boom"),
         timestamp := 99, messageType := S "unknown" }, none⟩] :
      List ExecRecord).length = 3 := by
  have h : executeLoop true 99
      [.delivered { success := true, timestamp := 99, messageType := S "text" } (S "row0"),
       .delivered { success := false, errorCode := some 93000,
                    errorMessage := some (S "bad"), timestamp := 99,
                    messageType := S "text" } (S "row1"),
       .throwBefore (S "boom")] =
    .ok [⟨{ success := true, timestamp := 99, messageType := S "text" }, some (S "row0")⟩,
         ⟨{ success := false, errorCode := some 93000, errorMessage := some (S "bad"),
            timestamp := 99, messageType := S "text" }, some (S "row1")⟩,
         ⟨{ success := false, errorCode := some (-1), errorMessage := some (S "boom"),
            timestamp := 99, messageType := S "unknown" }, none⟩] := by rfl
  exact ⟨h, ((C2_one_record_per_row true 99 _).1 _ h).1⟩

/-! ## Claim C9 (logger redaction) -/

/-- Masking is the identity on values that are not objects or arrays, so the
recursion branch of `maskSensitiveData` can be described uniformly by
`maskJson`. -/
theorem maskJson_eq_branch (v : Json) :
    (match v with
     | .obj _ => maskJson v
     | .arr _ => maskJson v
     | _ => v) = maskJson v := by
  cases v <;> rfl

/-- One step of the field traversal, with the preserved key factored out. -/
theorem maskFields_cons (k : Str) (v : Json) (rest : List (Str × Json)) :
    maskFields ((k, v) :: rest) = (k, maskFieldValue k v) :: maskFields rest := by
  cases hk : isSensitiveKey k <;> cases v <;> simp [maskFields, maskFieldValue, hk]

/-- Looking up a sensitive key in a masked object yields the masked value of
the original field. -/
theorem lookupField_maskFields_sensitive :
    ∀ {fields : List (Str × Json)} {k : Str} {v : Json},
      isSensitiveKey k = true →
      lookupField fields k = some v →
      lookupField (maskFields fields) k = some (maskValue v) := by
  intro fields
  induction fields with
  | nil =>
    intro k v hk h
    simp [lookupField] at h
  | cons f rest ih =>
    intro k v hk h
    obtain ⟨k0, v0⟩ := f
    rw [maskFields_cons]
    by_cases hk0 : k0 = k
    · subst hk0
      rw [lookupField, if_pos rfl] at h
      cases h
      simp [lookupField, maskFieldValue, hk]
    · rw [lookupField, if_neg hk0] at h
      rw [lookupField, if_neg hk0]
      exact ih hk h

/-- Looking up a non-sensitive key in a masked object yields the recursively
masked original value (masking is the identity on primitives). -/
theorem lookupField_maskFields_insensitive :
    ∀ {fields : List (Str × Json)} {k : Str} {v : Json},
      isSensitiveKey k = false →
      lookupField fields k = some v →
      lookupField (maskFields fields) k = some (maskJson v) := by
  intro fields
  induction fields with
  | nil =>
    intro k v hk h
    simp [lookupField] at h
  | cons f rest ih =>
    intro k v hk h
    obtain ⟨k0, v0⟩ := f
    rw [maskFields_cons]
    by_cases hk0 : k0 = k
    · subst hk0
      rw [lookupField, if_pos rfl] at h
      cases h
      cases v <;> simp [lookupField, maskFieldValue, hk, maskJson]
    · rw [lookupField, if_neg hk0] at h
      rw [lookupField, if_neg hk0]
      exact ih hk h

/-- Splitting a path at its last key. -/
theorem getPath_append_single :
    ∀ (p : List Str) (j : Json) (k : Str),
      getPath j (p ++ [k]) =
        match getPath j p with
        | some w => jsGetField w k
        | none => none := by
  intro p
  induction p with
  | nil =>
    intro j k
    simp only [List.nil_append, getPath]
    cases h : jsGetField j k <;> simp [getPath]
  | cons k0 p ih =>
    intro j k
    simp only [List.cons_append, getPath]
    cases h : jsGetField j k0 <;> simp [ih]

/-- Walking a masked tree along a path of non-sensitive keys reaches the
recursively masked subvalue. -/
theorem getPath_maskJson :
    ∀ (p : List Str), (∀ k ∈ p, isSensitiveKey k = false) →
      ∀ {j v : Json}, getPath j p = some v →
        getPath (maskJson j) p = some (maskJson v) := by
  intro p
  induction p with
  | nil =>
    intro _ j v h
    simp only [getPath, Option.some.injEq] at h
    subst h
    rfl
  | cons k p ih =>
    intro hp j v h
    simp only [getPath] at h ⊢
    cases hw : jsGetField j k with
    | none => rw [hw] at h; cases h
    | some w =>
      rw [hw] at h
      cases j with
      | obj fields =>
        have hk : isSensitiveKey k = false := hp k (List.mem_cons_self k p)
        have : jsGetField (maskJson (Json.obj fields)) k = some (maskJson w) := by
          rw [maskJson]
          exact lookupField_maskFields_insensitive hk hw
        rw [this]
        exact ih (fun x hx => hp x (List.mem_cons_of_mem k hx)) h
      | null => simp [jsGetField] at hw
      | bool b => simp [jsGetField] at hw
      | num n => simp [jsGetField] at hw
      | str s2 => simp [jsGetField] at hw
      | arr elems => simp [jsGetField] at hw

/-- C9: with masking enabled, for any nesting path of non-sensitive keys
through the logged data, (a) a field whose key contains a sensitive substring
is replaced according to the first4/last4 rule of `maskValue` (strings longer
than 8 characters keep their first and last four characters around `****`,
everything else becomes `"****"`), and (b) a field with a non-sensitive key is
recursed into (`maskJson` it is the identity on non-container values). -/
theorem C9_mask_sensitive_paths (j : Json) (path : List Str)
    (hpath : ∀ k ∈ path, isSensitiveKey k = false) :
    (∀ k v, isSensitiveKey k = true → getPath j (path ++ [k]) = some v →
      getPath (maskJson j) (path ++ [k]) = some (maskValue v)) ∧
    (∀ k v, isSensitiveKey k = false → getPath j (path ++ [k]) = some v →
      getPath (maskJson j) (path ++ [k]) = some (maskJson v)) := by
  constructor
  · intro k v hk h
    rw [getPath_append_single] at h ⊢
    cases hw : getPath j path with
    | none => rw [hw] at h; cases h
    | some w =>
      rw [hw] at h
      rw [getPath_maskJson path hpath hw]
      cases w with
      | obj fields =>
        rw [maskJson]
        exact lookupField_maskFields_sensitive hk h
      | null => simp [jsGetField] at h
      | bool b => simp [jsGetField] at h
      | num n => simp [jsGetField] at h
      | str s2 => simp [jsGetField] at h
      | arr elems => simp [jsGetField] at h
  · intro k v hk h
    have := getPath_maskJson (path ++ [k])
      (by
        intro x hx
        rcases List.mem_append.mp hx with hx | hx
        · exact hpath x hx
        · simp only [List.mem_singleton] at hx
          subst hx
          exact hk) h
    exact this

/-- C9 witness: the redaction theorem at a concrete nested object whose
`webhookUrl` field sits under the non-sensitive key `config`. -/
theorem C9_witness :
    getPath (maskJson (.obj [(S "config", .obj
        [(S "webhookUrl", .str (S "https://verylongsecret1234")),
         (S "count", .num 3)])]))
      [S "config", S "webhookUrl"] =
      some (maskValue (.str (S "https://verylongsecret1234"))) ∧
    maskValue (.str (S "https://verylongsecret1234")) =
      .str (S "http" ++ S "****" ++ S "1234") := by
  refine ⟨?_, by rfl⟩
  have h := (C9_mask_sensitive_paths
    (.obj [(S "config", .obj
        [(S "webhookUrl", .str (S "https://verylongsecret1234")),
         (S "count", .num 3)])])
    [S "config"] (by decide)).1 (S "webhookUrl")
    (.str (S "https://verylongsecret1234")) (by decide) (by rfl)
  exact h
